import Mathlib

/-!
Argus: calibration parsers, registration node, pose seeding, odometry set-up

A shallow embedding of the parts of the repository that the specification's
claims talk about, followed by the theorems that settle them.

Conventions of the embedding

* C++ `double` values are carried as an abstract type `D`; the text form that the
  YAML library gives a scalar is an abstract type `S`.  The library's scalar
  conversions are the parameters `encode : D → S` and `decode : S → Option D`.
* A C++ call that does not return normally (an exception of the YAML library, or
  an out-of-range `operator[]` on a `std::vector`) is an `Except.error` with a
  `Fault` saying which.  The calibration parser also has a variant in which an
  out-of-range read yields a stray value and the call goes on, as in a plain
  build.
* A function with a reference out-parameter returns the new value of that
  parameter next to its C++ return value.
-/

namespace Argus

/-! ## The YAML document tree (`YAML::Node`) -/

/-- Ways in which a call can fail to return normally. -/
inductive Fault where
  /-- Subscripting a scalar node with a key (`YAML::BadSubscript`). -/
  | badSubscript
  /-- A failed `as<T>()` conversion (`YAML::TypedBadConversion`). -/
  | badConversion
  /-- An out-of-range `operator[]` on a `std::vector` (undefined behaviour). -/
  | outOfBounds
  deriving DecidableEq, Repr

namespace YAML

/-- In-memory YAML node; the five constructors are the five values of
`YAML::NodeType`.  Map keys are strings, which is all the parsers use. -/
inductive Node (S : Type) where
  | undefined : Node S
  | null : Node S
  | scalar (text : S) : Node S
  | sequence (items : List (Node S)) : Node S
  | map (entries : List (String × Node S)) : Node S

variable {S D : Type}

/-- First value stored under `key` in a list of map entries, the undefined node
when there is none. -/
def lookup : List (String × Node S) → String → Node S
  | [], _ => .undefined
  | (k, w) :: rest, key => if k = key then w else lookup rest key

/-- Store `v` under `key`: an existing entry keeps its place and gets the new
value, otherwise a new entry is appended. -/
def upsert : List (String × Node S) → String → Node S → List (String × Node S)
  | [], key, v => [(key, v)]
  | (k, w) :: rest, key, v =>
    if k = key then (k, v) :: rest else (k, w) :: upsert rest key v

/-- The entries of a sequence turned into a map: item `i` is stored under the
decimal text of `i`. -/
def indexed : Nat → List (Node S) → List (String × Node S)
  | _, [] => []
  | i, n :: rest => (toString i, n) :: indexed (i + 1) rest

/-- Test `!node`: true exactly for a node that is not defined. -/
def Node.isUndefined : Node S → Bool
  | .undefined => true
  | _ => false

/-- Read access `node[key]` on a const node: the stored child of a map, and an
undefined node in every other case. -/
def Node.get : Node S → String → Node S
  | .map entries, key => lookup entries key
  | _, _ => .undefined

/-- What a mutable `node[key]` first does to `node`: an undefined or null node
becomes an empty map, a sequence becomes a map keyed by index, a scalar cannot be
subscripted. -/
def Node.toMapEntries : Node S → Except Fault (List (String × Node S))
  | .undefined => .ok []
  | .null => .ok []
  | .scalar _ => .error .badSubscript
  | .sequence items => .ok (indexed 0 items)
  | .map entries => .ok entries

/-- Statement `node[key] = v`. -/
def Node.assign (node : Node S) (key : String) (v : Node S) : Except Fault (Node S) :=
  match node.toMapEntries with
  | .error e => .error e
  | .ok entries => .ok (.map (upsert entries key v))

/-- Statement `node[k1][k2] = v`. -/
def Node.assign2 (node : Node S) (k1 k2 : String) (v : Node S) : Except Fault (Node S) :=
  match node.toMapEntries with
  | .error e => .error e
  | .ok entries =>
    match (lookup entries k1).assign k2 v with
    | .error e => .error e
    | .ok child => .ok (.map (upsert entries k1 child))

/-- Conversion `as<double>()` of one sequence item. -/
def Node.asDouble (decode : S → Option D) : Node S → Except Fault D
  | .scalar text =>
    match decode text with
    | some d => .ok d
    | none => .error .badConversion
  | _ => .error .badConversion

/-- Item-by-item conversion used by `as<std::vector<double>>()`. -/
def asDoubleList (decode : S → Option D) : List (Node S) → Except Fault (List D)
  | [] => .ok []
  | n :: rest =>
    match n.asDouble decode with
    | .error e => .error e
    | .ok d =>
      match asDoubleList decode rest with
      | .error e => .error e
      | .ok ds => .ok (d :: ds)

/-- Conversion `as< std::vector<double> >()`: only a sequence converts. -/
def Node.asDoubles (decode : S → Option D) : Node S → Except Fault (List D)
  | .sequence items => asDoubleList decode items
  | _ => .error .badConversion

/-- The node that assigning a `std::vector<double>` produces: a sequence of
scalars. -/
def Node.ofDoubles (encode : D → S) (ds : List D) : Node S :=
  .sequence (ds.map fun d => .scalar (encode d))

end YAML

open YAML

/-! ## Fiducial calibration (`FiducialCalibrationParsers.cpp`) -/

/-- A `geometry_msgs::Point`. -/
structure Point (D : Type) where
  x : D
  y : D
  z : D
  deriving DecidableEq, Repr

/-- A `FiducialInfo` message: the ordered points of one marker. -/
structure FiducialInfo (D : Type) where
  points : List (Point D)
  deriving DecidableEq, Repr

variable {S D : Type}

/-- The loop `for( i = 0; i < pointsX.size(); i++ )` of `ParseFiducialCalibration`;
`remaining` is `pointsX.size() - i`. -/
def ParseFiducialCalibration.loop (pointsX pointsY pointsZ : List D) :
    Nat → List (Point D) → Except Fault (List (Point D))
  | 0, points => .ok points
  | remaining + 1, points =>
    let i := pointsX.length - (remaining + 1)
    match pointsX[i]?, pointsY[i]?, pointsZ[i]? with
    | some x, some y, some z =>
      ParseFiducialCalibration.loop pointsX pointsY pointsZ remaining (points ++ [⟨x, y, z⟩])
    | _, _, _ => .error .outOfBounds

/-- Function `ParseFiducialCalibration( yaml, info )`: the returned pair is the
C++ return value and `info` after the call. -/
def ParseFiducialCalibration (decode : S → Option D) (yaml : Node S) (info : FiducialInfo D) :
    Except Fault (Bool × FiducialInfo D) :=
  if ((yaml.get "intrinsics").get "points_x").isUndefined ||
      ((yaml.get "intrinsics").get "points_y").isUndefined ||
      ((yaml.get "intrinsics").get "points_z").isUndefined then
    .ok (false, info)
  else
    match ((yaml.get "intrinsics").get "points_x").asDoubles decode with
    | .error e => .error e
    | .ok pointsX =>
    match ((yaml.get "intrinsics").get "points_y").asDoubles decode with
    | .error e => .error e
    | .ok pointsY =>
    match ((yaml.get "intrinsics").get "points_z").asDoubles decode with
    | .error e => .error e
    | .ok pointsZ =>
      if pointsX.length ≠ pointsY.length && pointsY.length ≠ pointsZ.length then
        .ok (false, info)
      else
        match ParseFiducialCalibration.loop pointsX pointsY pointsZ pointsX.length [] with
        | .error e => .error e
        | .ok points => .ok (true, { points := points })

/-- The three coordinate vectors that `PopulateFiducialCalibration` fills with
`push_back`, one step per point. -/
def PopulateFiducialCalibration.coords (points : List (Point D)) : List D × List D × List D :=
  points.foldl (fun acc p => (acc.1 ++ [p.x], acc.2.1 ++ [p.y], acc.2.2 ++ [p.z])) ([], [], [])

/-- Function `PopulateFiducialCalibration( info, yaml )`: the returned pair is the
C++ return value and `yaml` after the call. -/
def PopulateFiducialCalibration (encode : D → S) (info : FiducialInfo D) (yaml : Node S) :
    Except Fault (Bool × Node S) :=
  let c := PopulateFiducialCalibration.coords info.points
  match yaml.assign2 "intrinsics" "points_x" (Node.ofDoubles encode c.1) with
  | .error e => .error e
  | .ok yaml1 =>
  match yaml1.assign2 "intrinsics" "points_y" (Node.ofDoubles encode c.2.1) with
  | .error e => .error e
  | .ok yaml2 =>
  match yaml2.assign2 "intrinsics" "points_z" (Node.ofDoubles encode c.2.2) with
  | .error e => .error e
  | .ok yaml3 => .ok (true, yaml3)

/-- What the point list looks like at index `i`: the three coordinates exist and
the point is built from them. -/
def PointAt (pointsX pointsY pointsZ : List D) (points : List (Point D)) (i : Nat) : Prop :=
  ∃ x y z, pointsX[i]? = some x ∧ pointsY[i]? = some y ∧ pointsZ[i]? = some z ∧
    points[i]? = some ⟨x, y, z⟩

/-- A calibration document whose coordinate sequences have lengths 1, 2 and 2
(scalars are integers stored as themselves). -/
def mismatchedCalibration : Node Int :=
  .map [("intrinsics", .map [
    ("points_x", .sequence [.scalar 1]),
    ("points_y", .sequence [.scalar 1, .scalar 2]),
    ("points_z", .sequence [.scalar 1, .scalar 2])])]

/-- A well-formed calibration document with the two points (1, 2, 3) and
(4, 5, 6). -/
def twoPointCalibration : Node Int :=
  .map [("intrinsics", .map [
    ("points_x", .sequence [.scalar 1, .scalar 4]),
    ("points_y", .sequence [.scalar 2, .scalar 5]),
    ("points_z", .sequence [.scalar 3, .scalar 6])])]

/-! ## Fiducial array calibration (`FiducialCalibrationParsers.cpp`) -/

/-- The part of an `ExtrinsicsArrayInfo` message that the fiducial array parsers
touch: the member names, and the member poses in the same order. -/
structure ExtrinsicsArrayInfo (P : Type) where
  memberNames : List String
  extrinsics : List P
  deriving DecidableEq, Repr

/-- A `FiducialArrayInfo` message. -/
structure FiducialArrayInfo (P D : Type) where
  extrinsics : ExtrinsicsArrayInfo P
  fiducials : List (FiducialInfo D)
  deriving DecidableEq, Repr

variable {P : Type}

/-- The loop over `info.extrinsics.memberNames` of
`PopulateFiducialArrayCalibration`; `remaining` is `memberNames.size() - i`, and
`member` starts as a fresh (null) `YAML::Node` in every round. -/
def PopulateFiducialArrayCalibration.loop (encode : D → S) (info : FiducialArrayInfo P D) :
    Nat → Node S → Except Fault (Bool × Node S)
  | 0, yaml => .ok (true, yaml)
  | remaining + 1, yaml =>
    let i := info.extrinsics.memberNames.length - (remaining + 1)
    match info.extrinsics.memberNames[i]?, info.fiducials[i]? with
    | some memberName, some fiducial =>
      match PopulateFiducialCalibration encode fiducial .null with
      | .error e => .error e
      | .ok (false, _) => .ok (false, yaml)
      | .ok (true, member) =>
        match yaml.assign memberName member with
        | .error e => .error e
        | .ok yaml1 => PopulateFiducialArrayCalibration.loop encode info remaining yaml1
    | _, _ => .error .outOfBounds

/-- Function `PopulateFiducialArrayCalibration( info, yaml )`.  The extrinsics
writer it calls first, `PopulateExtrinsicsArrayCalibration`, belongs to another
package and is the parameter `populateExtrinsics`. -/
def PopulateFiducialArrayCalibration
    (populateExtrinsics : ExtrinsicsArrayInfo P → Node S → Except Fault (Bool × Node S))
    (encode : D → S) (info : FiducialArrayInfo P D) (yaml : Node S) :
    Except Fault (Bool × Node S) :=
  match populateExtrinsics info.extrinsics yaml with
  | .error e => .error e
  | .ok (false, yaml1) => .ok (false, yaml1)
  | .ok (true, yaml1) =>
    PopulateFiducialArrayCalibration.loop encode info info.extrinsics.memberNames.length yaml1

/-- Modelled from the spec: the member loop of `PopulateExtrinsicsArrayCalibration`
(extrinsics_array package, not among the sources).  The spec describes the
written document as "one section per entity: a nested mapping from entity
identifier to its pose"; here each member's pose is stored under
`yaml[memberName]["extrinsics"]`, members taken in order. -/
def PopulateExtrinsicsArrayCalibration.members (encodePose : P → Node S) :
    List String → List P → Node S → Except Fault (Bool × Node S)
  | memberName :: names, pose :: poses, yaml =>
    match yaml.assign2 memberName "extrinsics" (encodePose pose) with
    | .error e => .error e
    | .ok yaml1 => PopulateExtrinsicsArrayCalibration.members encodePose names poses yaml1
  | _, _, yaml => .ok (true, yaml)

/-- Modelled from the spec: `PopulateExtrinsicsArrayCalibration( info, yaml )` of
the extrinsics_array package, which is not among the sources; it writes every
member's pose into that member's section of the document. -/
def PopulateExtrinsicsArrayCalibration (encodePose : P → Node S)
    (info : ExtrinsicsArrayInfo P) (yaml : Node S) : Except Fault (Bool × Node S) :=
  PopulateExtrinsicsArrayCalibration.members encodePose info.memberNames info.extrinsics yaml

/-- A one-member array: member `fid0` with pose token 42 and the single point
(1, 2, 3). -/
def oneMemberArray : FiducialArrayInfo Int Int :=
  { extrinsics := { memberNames := ["fid0"], extrinsics := [42] },
    fiducials := [⟨[⟨1, 2, 3⟩]⟩] }

/-- The section of member `j` in `yaml` is what `PopulateFiducialCalibration`
builds from a fresh node for fiducial `j`. -/
def MemberSection (encode : D → S) (info : FiducialArrayInfo P D) (yaml : Node S) (j : Nat) :
    Prop :=
  ∃ memberName fiducial,
    info.extrinsics.memberNames[j]? = some memberName ∧
    info.fiducials[j]? = some fiducial ∧
    PopulateFiducialCalibration encode fiducial .null = .ok (true, yaml.get memberName)

/-! ## Camera array calibration node (`camera_array_calibrator.cpp`) -/

/-- A `FiducialDetection`; the node reads only its name. -/
structure FiducialDetection where
  name : String
  deriving DecidableEq, Repr

/-- An `ImageFiducialDetections` message: the camera that produced it and the
fiducials it saw, in message order. -/
structure ImageFiducialDetections where
  sourceName : String
  detections : List FiducialDetection
  deriving DecidableEq, Repr

/-- A call that the node makes on its `CameraArrayCalibrator`. -/
inductive CalibratorCall where
  | RegisterCamera (name : String)
  | RegisterFiducial (name : String)
  | BufferDetection (dets : ImageFiducialDetections)
  deriving DecidableEq, Repr

/-- Method `std::set<std::string>::insert`, the set being kept as the list of its
elements: an element already present is not added again. -/
def setInsert (set : List String) (name : String) : List String :=
  if name ∈ set then set else set ++ [name]

/-- The state of a `CameraObjectCalibrationNode` that `DetectionCallback` reads
and writes.  The calibrator is represented by the calls it has received, oldest
first. -/
structure CameraObjectCalibrationNode where
  _calibrator : List CalibratorCall
  _registeredCameras : List String
  _registeredFiducials : List String
  deriving DecidableEq, Repr

namespace CameraObjectCalibrationNode

/-- The node right after construction: nothing registered, no call made. -/
def initial : CameraObjectCalibrationNode :=
  { _calibrator := [], _registeredCameras := [], _registeredFiducials := [] }

/-- The loop `BOOST_FOREACH( const FiducialDetection& fd, dets.detections )` of
`DetectionCallback`. -/
def DetectionCallback.fiducials :
    List FiducialDetection → CameraObjectCalibrationNode → CameraObjectCalibrationNode
  | [], node => node
  | fd :: rest, node =>
    if node._registeredFiducials.count fd.name = 0 then
      DetectionCallback.fiducials rest
        { node with
          _calibrator := node._calibrator ++ [.RegisterFiducial fd.name]
          _registeredFiducials := setInsert node._registeredFiducials fd.name }
    else
      DetectionCallback.fiducials rest node

/-- Method `DetectionCallback( msg )`. -/
def DetectionCallback (node : CameraObjectCalibrationNode) (dets : ImageFiducialDetections) :
    CameraObjectCalibrationNode :=
  let node1 :=
    if node._registeredCameras.count dets.sourceName = 0 then
      { node with
        _calibrator := node._calibrator ++ [.RegisterCamera dets.sourceName]
        _registeredCameras := setInsert node._registeredCameras dets.sourceName }
    else node
  let node2 := DetectionCallback.fiducials dets.detections node1
  { node2 with _calibrator := node2._calibrator ++ [.BufferDetection dets] }

/-- Delivery of a finite sequence of detection messages, one callback each. -/
def deliver (node : CameraObjectCalibrationNode) (msgs : List ImageFiducialDetections) :
    CameraObjectCalibrationNode :=
  msgs.foldl DetectionCallback node

/-- The registration sets agree with the calls made so far: every name is in its
set at most once, and as often as it has been registered with the calibrator. -/
def Consistent (node : CameraObjectCalibrationNode) : Prop :=
  node._registeredCameras.Nodup ∧ node._registeredFiducials.Nodup ∧
  (∀ name, node._calibrator.count (.RegisterCamera name) = node._registeredCameras.count name) ∧
  (∀ name, node._calibrator.count (.RegisterFiducial name)
    = node._registeredFiducials.count name)

end CameraObjectCalibrationNode

/-! ## Single-frame pose estimation (`PoseEstimation.cpp`)

Matrix and vector entries are rationals.  The pose type of argus_utils and the
OpenCV routines are not part of these sources; they enter as the parameters
`PoseOps` and `OpenCV`. -/

/-- A `cv::Matx33f` / `cv::Matx33d`. -/
abbrev Mat33 := Matrix (Fin 3) (Fin 3) ℚ

/-- An `Eigen::Matrix4d`. -/
abbrev Mat44 := Matrix (Fin 4) (Fin 4) ℚ

/-- A 3×1 `cv::Mat` (`rvec`, `tvec`). -/
abbrev Vec3 := Fin 3 → ℚ

/-- Round `q` to the nearest integer multiple of `ulp`, a tie going to the even
multiple. -/
def roundToEven (q ulp : ℚ) : ℚ :=
  let n : ℤ := ⌊q / ulp⌋
  let rest : ℚ := q / ulp - n
  if rest < 1 / 2 then n * ulp
  else if 1 / 2 < rest then (n + 1) * ulp
  else if n % 2 = 0 then n * ulp
  else (n + 1) * ulp

/-- Conversion of a `double` to `float`: rounding to 24 significant bits, to
nearest with ties to even, the spacing never finer than 2^-149.  A value too
large for a `float`, which IEEE arithmetic turns into an infinity, is not
represented. -/
def toSingle (q : ℚ) : ℚ :=
  if q = 0 then 0 else roundToEven q ((2 : ℚ) ^ (max (Int.log 2 |q|) (-126) - 23))

/-- The two members of `image_geometry::PinholeCameraModel` that are read. -/
structure PinholeCameraModel where
  intrinsicMatrix : Mat33
  distortionCoeffs : List ℚ

/-- The seven arguments of the constructor
`PoseSE3( x, y, z, q0, q1, q2, q3 )`: a translation and four quaternion
components, in the order written. -/
structure PoseComponents where
  x : ℚ
  y : ℚ
  z : ℚ
  q0 : ℚ
  q1 : ℚ
  q2 : ℚ
  q3 : ℚ
  deriving DecidableEq

/-- The operations of `argus_utils::PoseSE3` that `EstimateArrayPose` uses. -/
structure PoseOps (Pose : Type) where
  /-- Constructor from seven components. -/
  fromComponents : PoseComponents → Pose
  /-- Constructor `PoseSE3( H )` from a homogeneous transform. -/
  fromTransform : Mat44 → Pose
  /-- Method `ToTransform().matrix()`. -/
  toTransform : Pose → Mat44
  /-- Composition `operator*`. -/
  mul : Pose → Pose → Pose

/-- A `cv::Exception`. -/
structure CvException where
  what : String
  deriving DecidableEq, Repr

/-- The arguments of one `cv::solvePnP` call, in call order. -/
structure SolvePnPCall where
  objectPoints : List (ℚ × ℚ × ℚ)
  imagePoints : List (ℚ × ℚ)
  cameraMatrix : Mat33
  distCoeffs : List ℚ
  rvec : Vec3
  tvec : Vec3
  useExtrinsicGuess : Bool

/-- The OpenCV routines that `EstimateArrayPose` calls.  `solvePnP` either raises
or returns its success flag with the new `rvec` and `tvec`. -/
structure OpenCV where
  /-- Function `cv::Rodrigues` from a rotation matrix to a rotation vector. -/
  RodriguesToVector : Mat33 → Vec3
  /-- Function `cv::Rodrigues` from a rotation vector to a rotation matrix. -/
  RodriguesToMatrix : Vec3 → Mat33
  solvePnP : SolvePnPCall → Except CvException (Bool × Vec3 × Vec3)

variable {Pose : Type}

/-- Lines 17–45 of `EstimateArrayPose`: the arguments with which `cv::solvePnP`
is called.  The local `cameraMat` is a `cv::Matx33f`, so the `cv::Matx33d` of the
camera model is converted entry by entry to `float` when it is assigned. -/
def EstimateArrayPose.solverCall (cv : OpenCV) (ops : PoseOps Pose)
    (imagePoints : List (ℚ × ℚ)) (cameraModel : Option PinholeCameraModel)
    (fiducialPoints : List (ℚ × ℚ × ℚ)) (guess : Pose) : SolvePnPCall :=
  let camera : Mat33 × List ℚ :=
    match cameraModel with
    | some model => (fun i j => toSingle (model.intrinsicMatrix i j), model.distortionCoeffs)
    | none => (1, [])
  let H := ops.toTransform guess
  let R : Mat33 := fun i j => H i.castSucc j.castSucc
  let tvec : Vec3 := fun i => H i.castSucc 3
  let rvec := cv.RodriguesToVector R
  { objectPoints := fiducialPoints
    imagePoints := imagePoints
    cameraMatrix := camera.1
    distCoeffs := camera.2
    rvec := rvec
    tvec := tvec
    useExtrinsicGuess := false }

/-- Lines 48–51: the homogeneous transform `H` assembled from `R` and `tvec`. -/
def EstimateArrayPose.transform (R : Mat33) (tvec : Vec3) : Mat44 :=
  !![R 0 0, R 0 1, R 0 2, tvec 0;
     R 1 0, R 1 1, R 1 2, tvec 1;
     R 2 0, R 2 1, R 2 2, tvec 2;
     0, 0, 0, 1]

/-- The arguments of the static `prerotation`. -/
def EstimateArrayPose.prerotationComponents : PoseComponents :=
  { x := 0, y := 0, z := 0, q0 := -1/2, q1 := 1/2, q2 := -1/2, q3 := 1/2 }

/-- The static `prerotation( 0, 0, 0, -0.5, 0.5, -0.5, 0.5 )`. -/
def EstimateArrayPose.prerotation (ops : PoseOps Pose) : Pose :=
  ops.fromComponents EstimateArrayPose.prerotationComponents

/-- Function `EstimateArrayPose( imagePoints, cameraModel, fiducialPoints, guess )`;
a null `cameraModel` pointer is `none`.  The value `solvePnP` returns is not used. -/
def EstimateArrayPose (cv : OpenCV) (ops : PoseOps Pose)
    (imagePoints : List (ℚ × ℚ)) (cameraModel : Option PinholeCameraModel)
    (fiducialPoints : List (ℚ × ℚ × ℚ)) (guess : Pose) : Except CvException Pose :=
  match cv.solvePnP
      (EstimateArrayPose.solverCall cv ops imagePoints cameraModel fiducialPoints guess) with
  | .error e => .error e
  | .ok (_, rvec, tvec) =>
    let R := cv.RodriguesToMatrix rvec
    let H := EstimateArrayPose.transform R tvec
    .ok (ops.mul (EstimateArrayPose.prerotation ops) (ops.fromTransform H))

/-- Poses kept as homogeneous transforms: composition is the matrix product and
the seven-component constructor takes the quaternion as (w, x, y, z). -/
def matrixPoses : PoseOps Mat44 where
  fromComponents c :=
    !![1 - 2 * (c.q2 * c.q2 + c.q3 * c.q3), 2 * (c.q1 * c.q2 - c.q3 * c.q0),
         2 * (c.q1 * c.q3 + c.q2 * c.q0), c.x;
       2 * (c.q1 * c.q2 + c.q3 * c.q0), 1 - 2 * (c.q1 * c.q1 + c.q3 * c.q3),
         2 * (c.q2 * c.q3 - c.q1 * c.q0), c.y;
       2 * (c.q1 * c.q3 - c.q2 * c.q0), 2 * (c.q2 * c.q3 + c.q1 * c.q0),
         1 - 2 * (c.q1 * c.q1 + c.q2 * c.q2), c.z;
       0, 0, 0, 1]
  fromTransform H := H
  toTransform p := p
  mul p q := p * q

/-- A stand-in for OpenCV whose solver makes no check of its own: it reports
failure through its return flag and leaves `rvec` and `tvec` as passed in. -/
def uncheckedSolver : OpenCV where
  RodriguesToVector _ := 0
  RodriguesToMatrix _ := 1
  solvePnP call := .ok (false, call.rvec, call.tvec)

/-- A camera model whose focal entries are 16777217 = 2^24 + 1, a `double` that
is not a `float`. -/
def wideModel : PinholeCameraModel :=
  { intrinsicMatrix := !![16777217, 0, 0; 0, 16777217, 0; 0, 0, 1]
    distortionCoeffs := [] }

/-! ## Laser odometry node set-up (`laser_odometry_node.cpp`) -/

/-- The matcher classes the constructor can instantiate. -/
inductive ScanMatcher where
  | ICPMatcher
  deriving DecidableEq, Repr

/-- The filter classes the constructor can instantiate. -/
inductive ScanFilter where
  | VoxelGridFilter
  | ApproximateVoxelGridFilter
  deriving DecidableEq, Repr

/-- The exceptions thrown by the constructor itself. -/
inductive StdException where
  | invalid_argument (what : String)
  deriving DecidableEq, Repr

/-- The members `_matcher` and `_filter` of a constructed `LaserOdometryNode`; a
null `_filter` pointer is `none`. -/
structure LaserOdometryNode where
  _matcher : ScanMatcher
  _filter : Option ScanFilter
  deriving DecidableEq, Repr

/-- Lines 33–70 of the constructor `LaserOdometryNode( nh, ph )`: the choice of
matcher and filter from the configured `matcher/type` and `filter/type`
strings. -/
def LaserOdometryNode.construct (matcherType filterType : String) :
    Except StdException LaserOdometryNode :=
  if matcherType = "icp" then
    if filterType = "voxel" then
      .ok { _matcher := .ICPMatcher, _filter := some .VoxelGridFilter }
    else if filterType = "approximate_voxel" then
      .ok { _matcher := .ICPMatcher, _filter := some .ApproximateVoxelGridFilter }
    else if filterType = "none" then
      .ok { _matcher := .ICPMatcher, _filter := none }
    else
      .error (.invalid_argument ("Unknown filter type: " ++ filterType))
  else
    .error (.invalid_argument ("Unknown matcher type: " ++ matcherType))

/-- The test of line 30 of `ParseFiducialCalibration`, in which the function
returns false: `(pointsX.size() != pointsY.size()) && (pointsY.size() != pointsZ.size())`. -/
def ParseFiducialCalibration.lengthCheckFails (pointsX pointsY pointsZ : List D) : Bool :=
  pointsX.length ≠ pointsY.length && pointsY.length ≠ pointsZ.length

/-- A calibration document whose coordinate sequences have lengths 2, 2 and 1
(scalars are integers stored as themselves). -/
def shortZCalibration : Node Int :=
  .map [("intrinsics", .map [
    ("points_x", .sequence [.scalar 1, .scalar 2]),
    ("points_y", .sequence [.scalar 1, .scalar 2]),
    ("points_z", .sequence [.scalar 1])])]

/-- A calibration document whose coordinate sequences have lengths 1, 2 and 1,
so that both inequalities of the length test hold. -/
def raggedCalibration : Node Int :=
  .map [("intrinsics", .map [
    ("points_x", .sequence [.scalar 1]),
    ("points_y", .sequence [.scalar 1, .scalar 2]),
    ("points_z", .sequence [.scalar 1])])]

/-- Read `v[i]` with the unchecked `operator[]` of `std::vector` as a plain build
executes it: inside the vector the element, beyond its end whatever the memory
there holds, given by `stray`. -/
def uncheckedAt (v : List D) (stray : Nat → D) (i : Nat) : D :=
  match v[i]? with
  | some d => d
  | none => stray i

/-- The point-building loop of `ParseFiducialCalibration` with unchecked reads of
`pointsY` and `pointsZ`; `remaining` is `pointsX.size() - i`, so that `pointsX[i]`
is always inside its vector. -/
def ParseFiducialCalibration.uncheckedLoop (strayY strayZ : Nat → D)
    (pointsX pointsY pointsZ : List D) : Nat → List (Point D) → List (Point D)
  | 0, points => points
  | remaining + 1, points =>
    let i := pointsX.length - (remaining + 1)
    match pointsX[i]? with
    | some x =>
      ParseFiducialCalibration.uncheckedLoop strayY strayZ pointsX pointsY pointsZ remaining
        (points ++ [⟨x, uncheckedAt pointsY strayY i, uncheckedAt pointsZ strayZ i⟩])
    | none => points

/-- Function `ParseFiducialCalibration( yaml, info )` as a plain build executes
it: the same steps as `ParseFiducialCalibration`, but an out-of-range `pointsY[i]`
or `pointsZ[i]` yields a stray value and the call goes on. -/
def ParseFiducialCalibration.unchecked (decode : S → Option D) (strayY strayZ : Nat → D)
    (yaml : Node S) (info : FiducialInfo D) : Except Fault (Bool × FiducialInfo D) :=
  if ((yaml.get "intrinsics").get "points_x").isUndefined ||
      ((yaml.get "intrinsics").get "points_y").isUndefined ||
      ((yaml.get "intrinsics").get "points_z").isUndefined then
    .ok (false, info)
  else
    match ((yaml.get "intrinsics").get "points_x").asDoubles decode with
    | .error e => .error e
    | .ok pointsX =>
    match ((yaml.get "intrinsics").get "points_y").asDoubles decode with
    | .error e => .error e
    | .ok pointsY =>
    match ((yaml.get "intrinsics").get "points_z").asDoubles decode with
    | .error e => .error e
    | .ok pointsZ =>
      if pointsX.length ≠ pointsY.length && pointsY.length ≠ pointsZ.length then
        .ok (false, info)
      else
        let points := ParseFiducialCalibration.uncheckedLoop strayY strayZ pointsX pointsY
          pointsZ pointsX.length []
        .ok (true, { points := points })

/-- A calibration document whose coordinate sequences have lengths 2, 1 and 1. -/
def shortYZCalibration : Node Int :=
  .map [("intrinsics", .map [
    ("points_x", .sequence [.scalar 1, .scalar 2]),
    ("points_y", .sequence [.scalar 1]),
    ("points_z", .sequence [.scalar 1])])]

/-! ## Writing the camera results (`camera_array_calibrator.cpp`) -/

/-- A `CameraObjectCalibration` as `WriteResults` reads it: one camera of the
calibrator with its estimated extrinsics. -/
structure CameraObjectCalibration (Pose : Type) where
  name : String
  extrinsics : Pose

/-- A `RelativePose`: the three members that `WriteResults` sets. -/
structure RelativePose (Pose : Type) where
  childID : String
  parentID : String
  pose : Pose

/-- What one call of `WriteResults` does to the outside: the arguments of its
`WriteExtrinsicsCalibration` call, and whether the error line was logged. -/
structure WriteResultsTrace (Pose : Type) where
  writerPath : String
  writerPoses : List (RelativePose Pose)
  errorLogged : Bool

/-- The loop `BOOST_FOREACH( const CameraObjectCalibration& cam, cams )` of
`WriteResults`, one `push_back` per camera. -/
def CameraObjectCalibrationNode.WriteResults.poses
    (cams : List (CameraObjectCalibration Pose)) (refFrame : String) :
    List (RelativePose Pose) :=
  cams.foldl
    (fun poses cam =>
      poses ++ [{ childID := cam.name, parentID := refFrame, pose := cam.extrinsics }])
    []

/-- Method `WriteResults( path )`.  The calibrator's answers `GetCameras()` and
`GetReferenceFrame()` are the arguments `cams` and `refFrame`; the extrinsics
writer of the extrinsics_array package is the parameter
`WriteExtrinsicsCalibration`. -/
def CameraObjectCalibrationNode.WriteResults
    (WriteExtrinsicsCalibration : String → List (RelativePose Pose) → Bool)
    (cams : List (CameraObjectCalibration Pose)) (refFrame : String) (path : String) :
    WriteResultsTrace Pose :=
  let poses := CameraObjectCalibrationNode.WriteResults.poses cams refFrame
  { writerPath := path
    writerPoses := poses
    errorLogged := !WriteExtrinsicsCalibration path poses }

/-! ## Laser odometry (`laser_odometry_node.cpp`, `ProcessCloud`)

Times, durations and the numeric parameters are rationals (seconds).  The pose
type, the scan filter and the scan matcher belong to other packages and enter as
parameters.  The quotient `Log( displacement ) / dt` is kept as its two operands.
The inlier ratio is a `float` quotient and is modelled with its rounding and with
the values that IEEE arithmetic gives for a zero divisor. -/

/-- A `LaserCloudType`: the header fields that are read, and the points. -/
structure LaserCloud where
  stamp : ℚ
  frame_id : String
  points : List (ℚ × ℚ × ℚ)
  deriving DecidableEq

/-- A `PoseSE3::TangentVector`. -/
abbrev TangentVector := Fin 6 → ℚ

/-- The operations of `argus::PoseSE3` that `ProcessCloud` and `ResetKeyframe`
use. -/
structure OdometryPoseOps (Pose : Type) where
  /-- Default constructor `PoseSE3()`, the identity pose. -/
  identity : Pose
  /-- Method `Inverse()`. -/
  inverse : Pose → Pose
  /-- Composition `operator*`. -/
  mul : Pose → Pose → Pose
  /-- Static `PoseSE3::Log`. -/
  log : Pose → TangentVector

/-- A `ScanMatchResult`. -/
structure ScanMatchResult (Pose : Type) where
  success : Bool
  numInliers : ℕ
  fitness : ℚ
  transform : Pose

/-- The members of `LaserOdometryNode` that `ProcessCloud` reads.  A null
`_filter` is `none`; an infinite `_maxKeyframeAge` (its default) is `none`.
Function `Match` is `_restarter.Match( key, curr, lastPose, aligned )`, giving the
result and the aligned cloud. -/
structure OdometryConfig (Pose : Type) where
  _filter : Option (LaserCloud → LaserCloud)
  Match : LaserCloud → LaserCloud → Pose → ScanMatchResult Pose × LaserCloud
  _maxDt : ℚ
  _maxKeyframeAge : Option ℚ
  _maxError : ℚ
  _minInlierRatio : ℚ

/-- The data members of a `CloudRegistration`; a null `keyframeCloud` is `none`. -/
structure CloudRegistration (Pose : Type) where
  showOutput : Bool
  keyframeCloud : Option LaserCloud
  keyframeTime : ℚ
  lastPose : Pose
  lastPoseTime : ℚ

/-- The `geometry_msgs::TwistStamped` published on `velPub`.  Its twist is
`Log( displacement ) / dt`, kept as numerator and divisor. -/
structure TwistStamped where
  stamp : ℚ
  frame_id : String
  twistNumerator : TangentVector
  twistDivisor : ℚ

/-- The outcome of one `ProcessCloud` call: the registration afterwards, the
velocity message if one was published, and the clouds published on the two debug
topics (aligned cloud, keyframe cloud) if any. -/
structure ProcessCloudResult (Pose : Type) where
  reg : CloudRegistration Pose
  velocity : Option TwistStamped
  debug : Option (LaserCloud × LaserCloud)

namespace LaserOdometryNode

/-- A default-constructed `CloudRegistration` after `RegisterCloudSource` has set
`showOutput`: no keyframe, both times zero, identity pose. -/
def CloudRegistration.initial (ops : OdometryPoseOps Pose) (showOutput : Bool) :
    CloudRegistration Pose :=
  { showOutput := showOutput
    keyframeCloud := none
    keyframeTime := 0
    lastPose := ops.identity
    lastPoseTime := 0 }

/-- Method `ResetKeyframe( reg, cloud, time )`. -/
def ResetKeyframe (ops : OdometryPoseOps Pose) (reg : CloudRegistration Pose)
    (cloud : LaserCloud) (time : ℚ) : CloudRegistration Pose :=
  { reg with
    keyframeCloud := some cloud
    keyframeTime := time
    lastPose := ops.identity
    lastPoseTime := time }

/-- A floating-point value that is a finite number, +infinity or not-a-number. -/
inductive FloatValue where
  | finite (value : ℚ)
  | infinity
  | nan
  deriving DecidableEq

/-- Comparison `value < limit` with a finite `limit`: false for +infinity and for
not-a-number. -/
def FloatValue.lt : FloatValue → ℚ → Bool
  | .finite value, limit => value < limit
  | .infinity, _ => false
  | .nan, _ => false

/-- Relation `value ≥ limit` with a finite `limit`: true for +infinity, false for
not-a-number. -/
def FloatValue.atLeast : FloatValue → ℚ → Prop
  | .finite value, limit => limit ≤ value
  | .infinity, _ => True
  | .nan, _ => False

/-- The quotient `numInliers / (float) size` of two counts, computed in `float`:
both counts are converted to `float`, a non-zero divisor gives the rounded
quotient, and a zero divisor gives not-a-number for 0 / 0 and +infinity
otherwise. -/
def floatQuotient (numInliers size : ℕ) : FloatValue :=
  if size = 0 then
    if numInliers = 0 then .nan else .infinity
  else
    .finite (toSingle (toSingle (numInliers : ℚ) / toSingle (size : ℚ)))

/-- Comparison `keyframeAge > _maxKeyframeAge`, the limit possibly infinite. -/
def exceedsLimit (value : ℚ) : Option ℚ → Bool
  | none => false
  | some limit => value > limit

/-- Method `ProcessCloud( reg, cloud )`. -/
def ProcessCloud (ops : OdometryPoseOps Pose) (node : OdometryConfig Pose)
    (reg : CloudRegistration Pose) (cloud : LaserCloud) : ProcessCloudResult Pose :=
  let currCloud : LaserCloud :=
    match node._filter with
    | some filter => filter cloud
    | none => cloud
  let currTime := cloud.stamp
  let keyframeAge := currTime - reg.keyframeTime
  let dt := currTime - reg.lastPoseTime
  match reg.keyframeCloud with
  | none =>
    { reg := ResetKeyframe ops reg currCloud currTime, velocity := none, debug := none }
  | some keyframeCloud =>
    if dt > node._maxDt || dt < 0 || exceedsLimit keyframeAge node._maxKeyframeAge then
      { reg := ResetKeyframe ops reg currCloud currTime, velocity := none, debug := none }
    else
      let matched := node.Match keyframeCloud currCloud reg.lastPose
      let result := matched.1
      let aligned := matched.2
      let debug := if reg.showOutput then some (aligned, keyframeCloud) else none
      if !result.success then
        { reg := ResetKeyframe ops reg currCloud currTime, velocity := none, debug := debug }
      else
        let inlierRatio := floatQuotient result.numInliers keyframeCloud.points.length
        if inlierRatio.lt node._minInlierRatio then
          { reg := ResetKeyframe ops reg currCloud currTime, velocity := none, debug := debug }
        else if result.fitness > node._maxError then
          { reg := ResetKeyframe ops reg currCloud currTime, velocity := none, debug := debug }
        else
          let displacement := ops.mul (ops.inverse reg.lastPose) result.transform
          let out : TwistStamped :=
            { stamp := currTime
              frame_id := cloud.frame_id
              twistNumerator := ops.log displacement
              twistDivisor := dt }
          { reg := { reg with lastPose := result.transform, lastPoseTime := currTime }
            velocity := some out
            debug := debug }

/-- The registration after a sequence of clouds, one `ProcessCloud` call each. -/
def processClouds (ops : OdometryPoseOps Pose) (node : OdometryConfig Pose)
    (reg : CloudRegistration Pose) (clouds : List LaserCloud) : CloudRegistration Pose :=
  clouds.foldl (fun r cloud => (ProcessCloud ops node r cloud).reg) reg

/-- Outcome (a) of `ProcessCloud`: a velocity was published, the last pose and its
time were advanced to the match transform and the cloud time, the keyframe was
left alone, and no test on the way asked for a reset; for the inlier ratio that
means the comparison `inlierRatio < _minInlierRatio` was false. -/
def Tracked (ops : OdometryPoseOps Pose) (node : OdometryConfig Pose)
    (reg : CloudRegistration Pose) (cloud : LaserCloud) (r : ProcessCloudResult Pose) : Prop :=
  ∃ keyframeCloud out,
    reg.keyframeCloud = some keyframeCloud ∧
    r.velocity = some out ∧
    out.stamp = cloud.stamp ∧
    out.frame_id = cloud.frame_id ∧
    out.twistDivisor = cloud.stamp - reg.lastPoseTime ∧
    out.twistNumerator
      = ops.log (ops.mul (ops.inverse reg.lastPose)
          (node.Match keyframeCloud
            (match node._filter with
              | some filter => filter cloud
              | none => cloud) reg.lastPose).1.transform) ∧
    r.reg.lastPose
      = (node.Match keyframeCloud
          (match node._filter with
            | some filter => filter cloud
            | none => cloud) reg.lastPose).1.transform ∧
    r.reg.lastPoseTime = cloud.stamp ∧
    r.reg.keyframeCloud = reg.keyframeCloud ∧
    r.reg.keyframeTime = reg.keyframeTime ∧
    0 ≤ cloud.stamp - reg.lastPoseTime ∧
    cloud.stamp - reg.lastPoseTime ≤ node._maxDt ∧
    (∀ limit, node._maxKeyframeAge = some limit → cloud.stamp - reg.keyframeTime ≤ limit) ∧
    (node.Match keyframeCloud
        (match node._filter with
          | some filter => filter cloud
          | none => cloud) reg.lastPose).1.success = true ∧
    (floatQuotient
        (node.Match keyframeCloud
          (match node._filter with
            | some filter => filter cloud
            | none => cloud) reg.lastPose).1.numInliers
        keyframeCloud.points.length).lt node._minInlierRatio = false ∧
    (node.Match keyframeCloud
        (match node._filter with
          | some filter => filter cloud
          | none => cloud) reg.lastPose).1.fitness ≤ node._maxError

/-- Outcome (b) of `ProcessCloud`: no velocity was published and the keyframe was
reset to the current (filtered) cloud at the cloud time, with the identity as
last pose. -/
def Restarted (ops : OdometryPoseOps Pose) (node : OdometryConfig Pose)
    (cloud : LaserCloud) (r : ProcessCloudResult Pose) : Prop :=
  r.velocity = none ∧
  r.reg.keyframeCloud
    = some (match node._filter with
        | some filter => filter cloud
        | none => cloud) ∧
  r.reg.keyframeTime = cloud.stamp ∧
  r.reg.lastPoseTime = cloud.stamp ∧
  r.reg.lastPose = ops.identity

/-- Poses on a line: a pose is a signed offset, composition is addition, and the
logarithm repeats the offset in every component. -/
def linePoses : OdometryPoseOps ℤ where
  identity := 0
  inverse p := -p
  mul p q := p + q
  log p := fun _ => (p : ℚ)

/-- A node without filter whose matcher always succeeds with every keyframe point
an inlier, fitness 0 and transform 3; `max_dt` is 1, the keyframe age is
unlimited, `max_error` is 1/4 and `min_inlier_ratio` is 1/2. -/
def steadyNode : OdometryConfig ℤ :=
  { _filter := none
    Match := fun key curr _ =>
      ({ success := true, numInliers := key.points.length, fitness := 0, transform := 3 }, curr)
    _maxDt := 1
    _maxKeyframeAge := none
    _maxError := 1/4
    _minInlierRatio := 1/2 }

/-- A cloud of two points stamped at second 5. -/
def cloudAtFive : LaserCloud :=
  { stamp := 5, frame_id := "laser", points := [(0, 0, 0), (1, 0, 0)] }

end LaserOdometryNode


/-! # Theorems -/

/-! ## Lemmas on the YAML tree -/

namespace YAML

theorem lookup_upsert_same (entries : List (String × Node S)) (key : String) (v : Node S) :
    lookup (upsert entries key v) key = v := by
  induction entries with
  | nil => simp [upsert, lookup]
  | cons e rest ih =>
    obtain ⟨k, w⟩ := e
    by_cases hk : k = key
    · simp [upsert, lookup, hk]
    · simp [upsert, lookup, hk, ih]

theorem lookup_upsert_other (entries : List (String × Node S)) (key key' : String) (v : Node S)
    (hne : key' ≠ key) : lookup (upsert entries key v) key' = lookup entries key' := by
  induction entries with
  | nil => simp [upsert, lookup, Ne.symm hne]
  | cons e rest ih =>
    obtain ⟨k, w⟩ := e
    by_cases hk : k = key
    · subst hk
      simp [upsert, lookup, Ne.symm hne]
    · by_cases hk' : k = key'
      · subst hk'
        simp [upsert, lookup, hk]
      · simp [upsert, lookup, hk, hk', ih]

theorem Node.get_of_defined {node : Node S} {key : String}
    (h : (node.get key).isUndefined = false) :
    ∃ entries, node = .map entries ∧ node.get key = lookup entries key := by
  cases node with
  | map entries => exact ⟨entries, rfl, rfl⟩
  | undefined => simp [Node.get, Node.isUndefined] at h
  | null => simp [Node.get, Node.isUndefined] at h
  | scalar t => simp [Node.get, Node.isUndefined] at h
  | sequence items => simp [Node.get, Node.isUndefined] at h

/-- After `node[k1][k2] = v`, reading `node[k1][k2]` gives `v`. -/
theorem Node.assign2_get_same {node node' : Node S} {k1 k2 : String} {v : Node S}
    (h : node.assign2 k1 k2 v = .ok node') : (node'.get k1).get k2 = v := by
  unfold Node.assign2 at h
  cases hm : node.toMapEntries with
  | error e => simp [hm] at h
  | ok entries =>
    simp only [hm] at h
    unfold Node.assign at h
    cases hc : (lookup entries k1).toMapEntries with
    | error e => simp [hc] at h
    | ok centries =>
      simp only [hc] at h
      injection h with h
      subst h
      simp [Node.get, lookup_upsert_same]

/-- The statement `node[k1][k2] = v` keeps every defined `node[k1][k]`, `k ≠ k2`. -/
theorem Node.assign2_get_other {node node' : Node S} {k1 k2 k : String} {v : Node S}
    (h : node.assign2 k1 k2 v = .ok node') (hne : k ≠ k2)
    (hdef : ((node.get k1).get k).isUndefined = false) :
    (node'.get k1).get k = (node.get k1).get k := by
  obtain ⟨centries, hchild, hget⟩ := Node.get_of_defined hdef
  have hdef1 : (node.get k1).isUndefined = false := by rw [hchild]; rfl
  obtain ⟨entries, hnode, hget1⟩ := Node.get_of_defined hdef1
  subst hnode
  simp only [Node.get] at hchild
  simp only [Node.assign2, Node.toMapEntries, Node.assign, hchild] at h
  injection h with h
  subst h
  simp [Node.get, lookup_upsert_same, lookup_upsert_other _ _ _ _ hne, hchild]

theorem asDoubleList_ofDoubles (encode : D → S) (decode : S → Option D)
    (hcodec : ∀ d, decode (encode d) = some d) (ds : List D) :
    asDoubleList decode (ds.map fun d => Node.scalar (encode d)) = .ok ds := by
  induction ds with
  | nil => rfl
  | cons d rest ih => simp [asDoubleList, Node.asDouble, hcodec, ih]

theorem Node.asDoubles_ofDoubles (encode : D → S) (decode : S → Option D)
    (hcodec : ∀ d, decode (encode d) = some d) (ds : List D) :
    (Node.ofDoubles encode ds).asDoubles decode = .ok ds := by
  simp [Node.ofDoubles, Node.asDoubles, asDoubleList_ofDoubles encode decode hcodec]

theorem Node.ofDoubles_defined (encode : D → S) (ds : List D) :
    (Node.ofDoubles encode ds).isUndefined = false := rfl

end YAML


/-! ## Lemmas on the fiducial parsers -/

theorem PopulateFiducialCalibration.coords_foldl (points : List (Point D)) (xs ys zs : List D) :
    points.foldl (fun acc p => (acc.1 ++ [p.x], acc.2.1 ++ [p.y], acc.2.2 ++ [p.z])) (xs, ys, zs)
      = (xs ++ points.map (·.x), ys ++ points.map (·.y), zs ++ points.map (·.z)) := by
  induction points generalizing xs ys zs with
  | nil => simp
  | cons p rest ih => simp [ih]

theorem PopulateFiducialCalibration.coords_eq (points : List (Point D)) :
    PopulateFiducialCalibration.coords points
      = (points.map (·.x), points.map (·.y), points.map (·.z)) := by
  simp [PopulateFiducialCalibration.coords, PopulateFiducialCalibration.coords_foldl]

theorem ParseFiducialCalibration.loop_spec (pointsX pointsY pointsZ : List D) :
    ∀ (remaining : Nat) (acc points : List (Point D)),
      ParseFiducialCalibration.loop pointsX pointsY pointsZ remaining acc = .ok points →
      acc.length + remaining = pointsX.length →
      (∀ i, i < acc.length → PointAt pointsX pointsY pointsZ acc i) →
      points.length = pointsX.length ∧
        ∀ i, i < pointsX.length → PointAt pointsX pointsY pointsZ points i := by
  intro remaining
  induction remaining with
  | zero =>
    intro acc points h hlen hacc
    simp only [ParseFiducialCalibration.loop] at h
    injection h with h
    subst h
    simp only [Nat.add_zero] at hlen
    exact ⟨hlen, fun i hi => hacc i (hlen ▸ hi)⟩
  | succ r ih =>
    intro acc points h hlen hacc
    have hi : pointsX.length - (r + 1) = acc.length := by omega
    simp only [ParseFiducialCalibration.loop, hi] at h
    cases hx : pointsX[acc.length]? with
    | none => simp [hx] at h
    | some x =>
      cases hy : pointsY[acc.length]? with
      | none => simp [hx, hy] at h
      | some y =>
        cases hz : pointsZ[acc.length]? with
        | none => simp [hx, hy, hz] at h
        | some z =>
          simp only [hx, hy, hz] at h
          refine ih (acc ++ [⟨x, y, z⟩]) points h (by simp; omega) ?_
          intro i hlt
          simp only [List.length_append, List.length_singleton] at hlt
          by_cases hlast : i = acc.length
          · subst hlast
            exact ⟨x, y, z, hx, hy, hz, by simp⟩
          · have hlt' : i < acc.length := by omega
            obtain ⟨x', y', z', hx', hy', hz', hp⟩ := hacc i hlt'
            exact ⟨x', y', z', hx', hy', hz', by simp [List.getElem?_append_left hlt', hp]⟩

theorem ParseFiducialCalibration.loop_returns (pointsX pointsY pointsZ : List D)
    (hy : pointsX.length ≤ pointsY.length) (hz : pointsX.length ≤ pointsZ.length) :
    ∀ (remaining : Nat) (acc : List (Point D)), remaining ≤ pointsX.length →
      ∃ points, ParseFiducialCalibration.loop pointsX pointsY pointsZ remaining acc = .ok points := by
  intro remaining
  induction remaining with
  | zero => intro acc _; exact ⟨acc, rfl⟩
  | succ r ih =>
    intro acc hr
    have hix : pointsX.length - (r + 1) < pointsX.length := by omega
    have hiy : pointsX.length - (r + 1) < pointsY.length := by omega
    have hiz : pointsX.length - (r + 1) < pointsZ.length := by omega
    simp only [ParseFiducialCalibration.loop, List.getElem?_eq_getElem hix,
      List.getElem?_eq_getElem hiy, List.getElem?_eq_getElem hiz]
    exact ih _ (by omega)
/-- After a successful `PopulateFiducialCalibration` the three coordinate
sequences sit under `intrinsics`. -/
theorem PopulateFiducialCalibration.written (encode : D → S) (info : FiducialInfo D)
    (yaml0 yaml : Node S) (ok : Bool)
    (hpop : PopulateFiducialCalibration encode info yaml0 = .ok (ok, yaml)) :
    ok = true ∧
    (yaml.get "intrinsics").get "points_x" = Node.ofDoubles encode (info.points.map (·.x)) ∧
    (yaml.get "intrinsics").get "points_y" = Node.ofDoubles encode (info.points.map (·.y)) ∧
    (yaml.get "intrinsics").get "points_z" = Node.ofDoubles encode (info.points.map (·.z)) := by
  unfold PopulateFiducialCalibration at hpop
  simp only [PopulateFiducialCalibration.coords_eq] at hpop
  cases h1 : yaml0.assign2 "intrinsics" "points_x" (Node.ofDoubles encode (info.points.map (·.x))) with
  | error e => simp [h1] at hpop
  | ok yaml1 =>
    simp only [h1] at hpop
    cases h2 : yaml1.assign2 "intrinsics" "points_y" (Node.ofDoubles encode (info.points.map (·.y))) with
    | error e => simp [h2] at hpop
    | ok yaml2 =>
      simp only [h2] at hpop
      cases h3 : yaml2.assign2 "intrinsics" "points_z" (Node.ofDoubles encode (info.points.map (·.z))) with
      | error e => simp [h3] at hpop
      | ok yaml3 =>
        simp only [h3] at hpop
        injection hpop with hpop
        injection hpop with hok hy
        subst hy
        have gx1 := Node.assign2_get_same h1
        have gy2 := Node.assign2_get_same h2
        have gz3 := Node.assign2_get_same h3
        have gx2 : (yaml2.get "intrinsics").get "points_x" = _ :=
          (Node.assign2_get_other h2 (by decide) (by rw [gx1]; rfl)).trans gx1
        have gx3 : (yaml3.get "intrinsics").get "points_x" = _ :=
          (Node.assign2_get_other h3 (by decide) (by rw [gx2]; rfl)).trans gx2
        have gy3 : (yaml3.get "intrinsics").get "points_y" = _ :=
          (Node.assign2_get_other h3 (by decide) (by rw [gy2]; rfl)).trans gy2
        exact ⟨hok.symm, gx3, gy3, gz3⟩

/-- On a fresh (null) node `PopulateFiducialCalibration` returns true. -/
theorem PopulateFiducialCalibration.fresh (encode : D → S) (info : FiducialInfo D) :
    PopulateFiducialCalibration encode info .null = .ok (true,
      .map [("intrinsics", .map [
        ("points_x", Node.ofDoubles encode (info.points.map (·.x))),
        ("points_y", Node.ofDoubles encode (info.points.map (·.y))),
        ("points_z", Node.ofDoubles encode (info.points.map (·.z)))])]) := by
  simp [PopulateFiducialCalibration, PopulateFiducialCalibration.coords_eq, Node.assign2,
    Node.assign, Node.toMapEntries, lookup, upsert]

/-- With all three sequences readable and of one length, parsing returns true and
rebuilds the points in order. -/
theorem ParseFiducialCalibration.of_coords (decode : S → Option D) (yaml : Node S)
    (info : FiducialInfo D) (points : List (Point D))
    (hx : ((yaml.get "intrinsics").get "points_x").asDoubles decode = .ok (points.map (·.x)))
    (hy : ((yaml.get "intrinsics").get "points_y").asDoubles decode = .ok (points.map (·.y)))
    (hz : ((yaml.get "intrinsics").get "points_z").asDoubles decode = .ok (points.map (·.z))) :
    ParseFiducialCalibration decode yaml info = .ok (true, { points := points }) := by
  have hdef : ∀ (n : Node S) (ds : List D), n.asDoubles decode = .ok ds → n.isUndefined = false := by
    intro n ds h
    cases n <;> simp [Node.asDoubles, Node.isUndefined] at h ⊢
  obtain ⟨pts, hloop⟩ := ParseFiducialCalibration.loop_returns (points.map (·.x))
    (points.map (·.y)) (points.map (·.z)) (by simp) (by simp) (points.map (·.x)).length [] le_rfl
  obtain ⟨hlen, hat⟩ := ParseFiducialCalibration.loop_spec _ _ _ _ _ _ hloop (by simp)
    (by intro i hi; simp at hi)
  have hpts : pts = points := by
    apply List.ext_getElem?
    intro i
    by_cases hi : i < points.length
    · obtain ⟨x, y, z, h1, h2, h3, h4⟩ := hat i (by simpa using hi)
      simp only [List.getElem?_map, List.getElem?_eq_getElem hi, Option.map_some',
        Option.some.injEq] at h1 h2 h3
      rw [h4, List.getElem?_eq_getElem hi, ← h1, ← h2, ← h3]
    · have h1 : points.length ≤ i := by omega
      have h2 : pts.length ≤ i := by simpa [hlen] using h1
      rw [List.getElem?_eq_none h1, List.getElem?_eq_none h2]
  subst hpts
  unfold ParseFiducialCalibration
  simp only [hdef _ _ hx, hdef _ _ hy, hdef _ _ hz, hx, hy, hz, hloop]
  simp

/-- Claim C1: for every `FiducialInfo` (any number of points, zero included),
`PopulateFiducialCalibration` on a fresh node returns true, and
`ParseFiducialCalibration` on whatever node a successful populate produced
returns true with exactly the points that were written, whatever `info0` held
before; populating from the points read back gives the same node again.  The
scalar conversions of the YAML library are assumed to round-trip. -/
theorem fiducial_calibration_roundtrip (encode : D → S) (decode : S → Option D)
    (hcodec : ∀ d, decode (encode d) = some d) (info info0 : FiducialInfo D) :
    (∃ yaml, PopulateFiducialCalibration encode info .null = .ok (true, yaml)) ∧
    ∀ yaml0 yaml, PopulateFiducialCalibration encode info yaml0 = .ok (true, yaml) →
      ParseFiducialCalibration decode yaml info0 = .ok (true, info) ∧
      ∀ info1, ParseFiducialCalibration decode yaml info0 = .ok (true, info1) →
        PopulateFiducialCalibration encode info1 yaml0 = .ok (true, yaml) := by
  refine ⟨⟨_, PopulateFiducialCalibration.fresh encode info⟩, ?_⟩
  intro yaml0 yaml hpop
  obtain ⟨_, gx, gy, gz⟩ := PopulateFiducialCalibration.written encode info yaml0 yaml true hpop
  have hparse : ParseFiducialCalibration decode yaml info0 = .ok (true, info) :=
    ParseFiducialCalibration.of_coords decode yaml info0 info.points
      (by rw [gx]; exact Node.asDoubles_ofDoubles encode decode hcodec _)
      (by rw [gy]; exact Node.asDoubles_ofDoubles encode decode hcodec _)
      (by rw [gz]; exact Node.asDoubles_ofDoubles encode decode hcodec _)
  refine ⟨hparse, ?_⟩
  intro info1 h1
  rw [hparse] at h1
  injection h1 with h1
  injection h1 with _ h1
  rw [← h1]
  exact hpop

/-- Witness for C1: two points, integer scalars stored as themselves. -/
theorem fiducial_calibration_roundtrip_witness :
    (∀ d : Int, (some : Int → Option Int) (id d) = some d) ∧
    ((∃ yaml, PopulateFiducialCalibration (id : Int → Int) ⟨[⟨1, 2, 3⟩, ⟨4, 5, 6⟩]⟩ .null
        = .ok (true, yaml)) ∧
    ∀ yaml0 yaml, PopulateFiducialCalibration (id : Int → Int) ⟨[⟨1, 2, 3⟩, ⟨4, 5, 6⟩]⟩ yaml0
        = .ok (true, yaml) →
      ParseFiducialCalibration some yaml ⟨[]⟩ = .ok (true, ⟨[⟨1, 2, 3⟩, ⟨4, 5, 6⟩]⟩) ∧
      ∀ info1, ParseFiducialCalibration some yaml ⟨[]⟩ = .ok (true, info1) →
        PopulateFiducialCalibration (id : Int → Int) info1 yaml0 = .ok (true, yaml)) :=
  ⟨fun _ => rfl, fiducial_calibration_roundtrip id some (fun _ => rfl) _ _⟩
/-- Claim C2 (the code departs from it): with `points_x` of length 1 and
`points_y`, `points_z` of length 2 the length test passes, and
`ParseFiducialCalibration` returns true with a single point, dropping the second
`y` and `z`. -/
theorem ParseFiducialCalibration.accepts_mismatched_lengths :
    ((mismatchedCalibration.get "intrinsics").get "points_x").asDoubles some = .ok [1] ∧
    ((mismatchedCalibration.get "intrinsics").get "points_y").asDoubles some = .ok [1, 2] ∧
    ((mismatchedCalibration.get "intrinsics").get "points_z").asDoubles some = .ok [1, 2] ∧
    ParseFiducialCalibration some mismatchedCalibration ⟨[⟨7, 8, 9⟩]⟩
      = .ok (true, ⟨[⟨1, 1, 1⟩]⟩) :=
  ⟨rfl, rfl, rfl, rfl⟩

/-- When `ParseFiducialCalibration` returns true with every vector read in range,
the three sequences converted to `pointsX`, `pointsY`, `pointsZ`, the new
`info.points` has as many points as `pointsX` has entries, its `i`-th point is
`(pointsX[i], pointsY[i], pointsZ[i])` for every `i` below that length, and the
result is the same whatever points `info` held before the call. -/
theorem ParseFiducialCalibration.success_points (decode : S → Option D) (yaml : Node S)
    (info info' : FiducialInfo D)
    (h : ParseFiducialCalibration decode yaml info = .ok (true, info')) :
    ∃ pointsX pointsY pointsZ,
      ((yaml.get "intrinsics").get "points_x").asDoubles decode = .ok pointsX ∧
      ((yaml.get "intrinsics").get "points_y").asDoubles decode = .ok pointsY ∧
      ((yaml.get "intrinsics").get "points_z").asDoubles decode = .ok pointsZ ∧
      info'.points.length = pointsX.length ∧
      (∀ i, i < pointsX.length → PointAt pointsX pointsY pointsZ info'.points i) ∧
      ∀ other, ParseFiducialCalibration decode yaml other = .ok (true, info') := by
  unfold ParseFiducialCalibration at h ⊢
  split at h
  · simp at h
  · rename_i hdef
    cases hx : ((yaml.get "intrinsics").get "points_x").asDoubles decode with
    | error e => simp [hx] at h
    | ok pointsX =>
      cases hy : ((yaml.get "intrinsics").get "points_y").asDoubles decode with
      | error e => simp [hx, hy] at h
      | ok pointsY =>
        cases hz : ((yaml.get "intrinsics").get "points_z").asDoubles decode with
        | error e => simp [hx, hy, hz] at h
        | ok pointsZ =>
          simp only [hx, hy, hz] at h
          split at h
          · simp at h
          · rename_i hlen
            cases hloop : ParseFiducialCalibration.loop pointsX pointsY pointsZ
                pointsX.length [] with
            | error e => simp [hloop] at h
            | ok points =>
              simp only [hloop] at h
              injection h with h
              injection h with _ h
              subst h
              obtain ⟨hl, hat⟩ := ParseFiducialCalibration.loop_spec _ _ _ _ _ _ hloop
                (by simp) (by intro i hi; simp at hi)
              refine ⟨pointsX, pointsY, pointsZ, rfl, rfl, rfl, hl, hat, ?_⟩
              intro other
              simp only [if_neg hdef, if_neg hlen, hloop]

/-- The in-range success at a two-point document parsed over an `info` that
already held a point. -/
theorem ParseFiducialCalibration.success_points_witness :
    ParseFiducialCalibration some twoPointCalibration ⟨[⟨0, 0, 0⟩]⟩
      = .ok (true, ⟨[⟨1, 2, 3⟩, ⟨4, 5, 6⟩]⟩) ∧
    ∃ pointsX pointsY pointsZ,
      ((twoPointCalibration.get "intrinsics").get "points_x").asDoubles some = .ok pointsX ∧
      ((twoPointCalibration.get "intrinsics").get "points_y").asDoubles some = .ok pointsY ∧
      ((twoPointCalibration.get "intrinsics").get "points_z").asDoubles some = .ok pointsZ ∧
      (⟨[⟨1, 2, 3⟩, ⟨4, 5, 6⟩]⟩ : FiducialInfo Int).points.length = pointsX.length ∧
      (∀ i, i < pointsX.length →
        PointAt pointsX pointsY pointsZ (⟨[⟨1, 2, 3⟩, ⟨4, 5, 6⟩]⟩ : FiducialInfo Int).points i) ∧
      ∀ other, ParseFiducialCalibration some twoPointCalibration other
        = .ok (true, ⟨[⟨1, 2, 3⟩, ⟨4, 5, 6⟩]⟩) :=
  ⟨rfl, ParseFiducialCalibration.success_points some twoPointCalibration ⟨[⟨0, 0, 0⟩]⟩
    ⟨[⟨1, 2, 3⟩, ⟨4, 5, 6⟩]⟩ rfl⟩
/-! ## Lemmas on the fiducial array writer -/

namespace YAML

/-- After `node[key] = v`, reading `node[key]` gives `v`. -/
theorem Node.assign_get_same {node node' : Node S} {key : String} {v : Node S}
    (h : node.assign key v = .ok node') : node'.get key = v := by
  unfold Node.assign at h
  cases hm : node.toMapEntries with
  | error e => simp [hm] at h
  | ok entries =>
    simp only [hm] at h
    injection h with h
    subst h
    simp [Node.get, lookup_upsert_same]

/-- The statement `node[key] = v` keeps every defined `node[k]`, `k ≠ key`. -/
theorem Node.assign_get_other {node node' : Node S} {key k : String} {v : Node S}
    (h : node.assign key v = .ok node') (hne : k ≠ key)
    (hdef : (node.get k).isUndefined = false) : node'.get k = node.get k := by
  obtain ⟨entries, hnode, _⟩ := Node.get_of_defined hdef
  subst hnode
  simp only [Node.assign, Node.toMapEntries] at h
  injection h with h
  subst h
  simp [Node.get, lookup_upsert_other _ _ _ _ hne]

end YAML

/-- The section that the array writer leaves for member `i`: exactly the node
that `PopulateFiducialCalibration` builds from a fresh node for fiducial `i`. -/
theorem PopulateFiducialArrayCalibration.loop_sections (encode : D → S)
    (info : FiducialArrayInfo P D) (hnodup : info.extrinsics.memberNames.Nodup) :
    ∀ (remaining : Nat) (yaml yaml' : Node S),
      PopulateFiducialArrayCalibration.loop encode info remaining yaml = .ok (true, yaml') →
      remaining ≤ info.extrinsics.memberNames.length →
      (∀ j, j < info.extrinsics.memberNames.length - remaining →
        MemberSection encode info yaml j) →
      ∀ j, j < info.extrinsics.memberNames.length → MemberSection encode info yaml' j := by
  intro remaining
  induction remaining with
  | zero =>
    intro yaml yaml' h _ hinv j hj
    simp only [PopulateFiducialArrayCalibration.loop] at h
    injection h with h
    injection h with _ h
    subst h
    exact hinv j (by simpa using hj)
  | succ r ih =>
    intro yaml yaml' h hr hinv
    simp only [PopulateFiducialArrayCalibration.loop] at h
    generalize hi : info.extrinsics.memberNames.length - (r + 1) = i at h hinv
    cases hname : info.extrinsics.memberNames[i]? with
    | none => simp [hname] at h
    | some memberName =>
      cases hfid : info.fiducials[i]? with
      | none => simp [hname, hfid] at h
      | some fiducial =>
        simp only [hname, hfid, PopulateFiducialCalibration.fresh] at h
        cases hassign : yaml.assign memberName
            (.map [("intrinsics", .map [
              ("points_x", Node.ofDoubles encode (fiducial.points.map (·.x))),
              ("points_y", Node.ofDoubles encode (fiducial.points.map (·.y))),
              ("points_z", Node.ofDoubles encode (fiducial.points.map (·.z)))])]) with
        | error e => simp [hassign] at h
        | ok yaml1 =>
          simp only [hassign] at h
          refine ih yaml1 yaml' h (by omega) ?_
          intro j hj
          by_cases hji : j = i
          · subst hji
            refine ⟨memberName, fiducial, hname, hfid, ?_⟩
            rw [Node.assign_get_same hassign]
            exact PopulateFiducialCalibration.fresh encode fiducial
          · obtain ⟨name, fid, hn, hf, hsec⟩ := hinv j (by omega)
            refine ⟨name, fid, hn, hf, ?_⟩
            have hne : name ≠ memberName := by
              intro heq
              subst heq
              have hjl : j < info.extrinsics.memberNames.length := by omega
              have hil : i < info.extrinsics.memberNames.length := by omega
              rw [List.getElem?_eq_getElem hjl] at hn
              rw [List.getElem?_eq_getElem hil] at hname
              have := (List.Nodup.getElem_inj_iff hnodup).1
                ((Option.some.inj hn).trans (Option.some.inj hname).symm)
              exact hji this
            have hdef : (yaml.get name).isUndefined = false := by
              rw [PopulateFiducialCalibration.fresh] at hsec
              injection hsec with hsec
              injection hsec with _ hsec
              rw [← hsec]
              rfl
            rw [Node.assign_get_other hassign hne hdef]
            exact hsec

/-- Whatever the extrinsics writer stored, after a successful
`PopulateFiducialArrayCalibration` with distinct member names every member's
section is the node built from a fresh one by `PopulateFiducialCalibration`: it
holds the `intrinsics` triple of the matching fiducial and no other key. -/
theorem PopulateFiducialArrayCalibration.sections_replaced
    (populateExtrinsics : ExtrinsicsArrayInfo P → Node S → Except Fault (Bool × Node S))
    (encode : D → S) (info : FiducialArrayInfo P D) (yaml0 yaml : Node S)
    (hnodup : info.extrinsics.memberNames.Nodup)
    (h : PopulateFiducialArrayCalibration populateExtrinsics encode info yaml0
      = .ok (true, yaml)) :
    ∀ j, j < info.extrinsics.memberNames.length →
      ∃ memberName fiducial,
        info.extrinsics.memberNames[j]? = some memberName ∧
        info.fiducials[j]? = some fiducial ∧
        (yaml.get memberName).get "intrinsics" = .map [
          ("points_x", Node.ofDoubles encode (fiducial.points.map (·.x))),
          ("points_y", Node.ofDoubles encode (fiducial.points.map (·.y))),
          ("points_z", Node.ofDoubles encode (fiducial.points.map (·.z)))] ∧
        ∀ key, key ≠ "intrinsics" → ((yaml.get memberName).get key).isUndefined = true := by
  unfold PopulateFiducialArrayCalibration at h
  cases hext : populateExtrinsics info.extrinsics yaml0 with
  | error e => simp [hext] at h
  | ok r =>
    obtain ⟨ok, yaml1⟩ := r
    cases ok with
    | false => simp [hext] at h
    | true =>
      simp only [hext] at h
      intro j hj
      obtain ⟨name, fid, hn, hf, hsec⟩ :=
        PopulateFiducialArrayCalibration.loop_sections encode info hnodup _ yaml1 yaml h le_rfl
          (by intro j hj; simp at hj) j hj
      rw [PopulateFiducialCalibration.fresh] at hsec
      injection hsec with hsec
      injection hsec with _ hsec
      refine ⟨name, fid, hn, hf, ?_, ?_⟩
      · rw [← hsec]
        simp [Node.get, lookup]
      · intro key hkey
        rw [← hsec]
        simp [Node.get, lookup, Ne.symm hkey, Node.isUndefined]

/-- The replacement of sections at the one-member array `fid0`, with the
extrinsics writer that stores each pose in the member's section. -/
theorem PopulateFiducialArrayCalibration.sections_replaced_fid0 :
    ∀ j, j < oneMemberArray.extrinsics.memberNames.length →
      ∃ memberName fiducial,
        oneMemberArray.extrinsics.memberNames[j]? = some memberName ∧
        oneMemberArray.fiducials[j]? = some fiducial ∧
        ((Node.map [("fid0", .map [("intrinsics", .map [
            ("points_x", .sequence [.scalar 1]),
            ("points_y", .sequence [.scalar 2]),
            ("points_z", .sequence [.scalar 3])])])] : Node Int).get memberName).get
          "intrinsics" = .map [
            ("points_x", Node.ofDoubles id (fiducial.points.map (·.x))),
            ("points_y", Node.ofDoubles id (fiducial.points.map (·.y))),
            ("points_z", Node.ofDoubles id (fiducial.points.map (·.z)))] ∧
        ∀ key, key ≠ "intrinsics" →
          (((Node.map [("fid0", .map [("intrinsics", .map [
            ("points_x", .sequence [.scalar 1]),
            ("points_y", .sequence [.scalar 2]),
            ("points_z", .sequence [.scalar 3])])])] : Node Int).get memberName).get
              key).isUndefined = true :=
  PopulateFiducialArrayCalibration.sections_replaced
    (PopulateExtrinsicsArrayCalibration Node.scalar) id oneMemberArray .null _
    (List.nodup_singleton _) rfl

/-- Claim C3 (the code departs from it): for the one-member array `fid0`, the
extrinsics writer stores the pose under `yaml["fid0"]["extrinsics"]`, and
`PopulateFiducialArrayCalibration` returns true with a document whose `fid0`
section holds the `intrinsics` triple only: the pose written before is gone. -/
theorem PopulateFiducialArrayCalibration.drops_member_pose :
    PopulateExtrinsicsArrayCalibration Node.scalar oneMemberArray.extrinsics .null
      = .ok (true, .map [("fid0", .map [("extrinsics", .scalar 42)])]) ∧
    PopulateFiducialArrayCalibration (PopulateExtrinsicsArrayCalibration Node.scalar) id
        oneMemberArray .null
      = .ok (true, .map [("fid0", .map [("intrinsics", .map [
          ("points_x", .sequence [.scalar 1]),
          ("points_y", .sequence [.scalar 2]),
          ("points_z", .sequence [.scalar 3])])])]) ∧
    (((Node.map [("fid0", .map [("intrinsics", .map [
          ("points_x", .sequence [.scalar 1]),
          ("points_y", .sequence [.scalar 2]),
          ("points_z", .sequence [.scalar 3])])])] : Node Int).get "fid0").get
        "extrinsics").isUndefined = true :=
  ⟨rfl, rfl, rfl⟩
/-! ## The camera array calibration node -/

namespace CameraObjectCalibrationNode

theorem setInsert_of_count_zero (set : List String) (name : String)
    (h : set.count name = 0) : setInsert set name = set ++ [name] := by
  have : name ∉ set := List.count_eq_zero.1 h
  simp [setInsert, this]

theorem subset_setInsert (set : List String) (name : String) : set ⊆ setInsert set name := by
  unfold setInsert
  split
  · exact List.Subset.refl _
  · exact List.subset_append_left _ _

theorem mem_setInsert (set : List String) (name : String) : name ∈ setInsert set name := by
  unfold setInsert
  split
  · assumption
  · simp

theorem DetectionCallback.fiducials_consistent (dets : List FiducialDetection) :
    ∀ node, Consistent node → Consistent (DetectionCallback.fiducials dets node) := by
  induction dets with
  | nil => intro node h; exact h
  | cons fd rest ih =>
    intro node h
    unfold DetectionCallback.fiducials
    split
    · rename_i hcount
      apply ih
      obtain ⟨hc, hf, hcc, hfc⟩ := h
      have hnot : fd.name ∉ node._registeredFiducials := List.count_eq_zero.1 hcount
      refine ⟨hc, ?_, ?_, ?_⟩
      · simp only [setInsert_of_count_zero _ _ hcount]
        exact List.Nodup.append hf (List.nodup_singleton _) (by simpa using hnot)
      · intro name
        simp [List.count_append, hcc name]
      · intro name
        simp only [setInsert_of_count_zero _ _ hcount, List.count_append, hfc name]
        by_cases hn : fd.name = name
        · simp [hn]
        · simp [hn, List.count_cons]
    · exact ih node h

theorem DetectionCallback_consistent (node : CameraObjectCalibrationNode)
    (dets : ImageFiducialDetections) (h : Consistent node) :
    Consistent (DetectionCallback node dets) := by
  unfold DetectionCallback
  have h1 : Consistent
      (if node._registeredCameras.count dets.sourceName = 0 then
        { node with
          _calibrator := node._calibrator ++ [.RegisterCamera dets.sourceName]
          _registeredCameras := setInsert node._registeredCameras dets.sourceName }
      else node) := by
    split
    · rename_i hcount
      obtain ⟨hc, hf, hcc, hfc⟩ := h
      have hnot : dets.sourceName ∉ node._registeredCameras := List.count_eq_zero.1 hcount
      refine ⟨?_, hf, ?_, ?_⟩
      · simp only [setInsert_of_count_zero _ _ hcount]
        exact List.Nodup.append hc (List.nodup_singleton _) (by simpa using hnot)
      · intro name
        simp only [setInsert_of_count_zero _ _ hcount, List.count_append, hcc name]
        by_cases hn : dets.sourceName = name
        · simp [hn]
        · simp [hn, List.count_cons]
      · intro name
        simp [List.count_append, hfc name]
    · exact h
  obtain ⟨hc, hf, hcc, hfc⟩ := DetectionCallback.fiducials_consistent dets.detections _ h1
  refine ⟨hc, hf, ?_, ?_⟩
  · intro name
    simp [List.count_append, hcc name]
  · intro name
    simp [List.count_append, hfc name]

theorem deliver_consistent (msgs : List ImageFiducialDetections) :
    ∀ node, Consistent node → Consistent (deliver node msgs) := by
  induction msgs with
  | nil => intro node h; exact h
  | cons msg rest ih =>
    intro node h
    exact ih _ (DetectionCallback_consistent node msg h)

theorem initial_consistent : Consistent initial := by
  simp [Consistent, initial]

/-- Claim C4: after any finite sequence of detection messages delivered to a
freshly constructed node, the calibrator has received `RegisterCamera` at most
once for each name and `RegisterFiducial` at most once for each name. -/
theorem register_at_most_once (msgs : List ImageFiducialDetections) (name : String) :
    (deliver initial msgs)._calibrator.count (.RegisterCamera name) ≤ 1 ∧
    (deliver initial msgs)._calibrator.count (.RegisterFiducial name) ≤ 1 := by
  obtain ⟨hc, hf, hcc, hfc⟩ := deliver_consistent msgs initial initial_consistent
  rw [hcc name, hfc name]
  exact ⟨List.nodup_iff_count_le_one.1 hc name, List.nodup_iff_count_le_one.1 hf name⟩

theorem DetectionCallback.fiducials_frame (dets : List FiducialDetection) :
    ∀ node, (DetectionCallback.fiducials dets node)._registeredCameras
      = node._registeredCameras := by
  induction dets with
  | nil => intro node; rfl
  | cons fd rest ih =>
    intro node
    unfold DetectionCallback.fiducials
    split
    · rw [ih]
    · rw [ih]

theorem DetectionCallback.fiducials_grow (dets : List FiducialDetection) :
    ∀ node, node._registeredFiducials
        ⊆ (DetectionCallback.fiducials dets node)._registeredFiducials ∧
      ∀ fd, fd ∈ dets →
        fd.name ∈ (DetectionCallback.fiducials dets node)._registeredFiducials := by
  induction dets with
  | nil => intro node; exact ⟨List.Subset.refl _, by simp⟩
  | cons fd rest ih =>
    intro node
    unfold DetectionCallback.fiducials
    split
    · obtain ⟨hsub, hall⟩ := ih
        { node with
          _calibrator := node._calibrator ++ [.RegisterFiducial fd.name]
          _registeredFiducials := setInsert node._registeredFiducials fd.name }
      refine ⟨List.Subset.trans (subset_setInsert _ _) hsub, ?_⟩
      intro fd' hmem
      rcases List.mem_cons.1 hmem with heq | hrest
      · subst heq
        exact hsub (mem_setInsert _ _)
      · exact hall fd' hrest
    · rename_i hcount
      obtain ⟨hsub, hall⟩ := ih node
      refine ⟨hsub, ?_⟩
      intro fd' hmem
      rcases List.mem_cons.1 hmem with heq | hrest
      · subst heq
        exact hsub (List.count_pos_iff.1 (Nat.pos_of_ne_zero hcount))
      · exact hall fd' hrest

theorem DetectionCallback_grow (node : CameraObjectCalibrationNode)
    (dets : ImageFiducialDetections) :
    node._registeredCameras ⊆ (DetectionCallback node dets)._registeredCameras ∧
    node._registeredFiducials ⊆ (DetectionCallback node dets)._registeredFiducials ∧
    dets.sourceName ∈ (DetectionCallback node dets)._registeredCameras ∧
    ∀ fd, fd ∈ dets.detections →
      fd.name ∈ (DetectionCallback node dets)._registeredFiducials := by
  unfold DetectionCallback
  simp only [DetectionCallback.fiducials_frame]
  split
  · rename_i hcount
    obtain ⟨hsub, hall⟩ := DetectionCallback.fiducials_grow dets.detections
      { node with
        _calibrator := node._calibrator ++ [.RegisterCamera dets.sourceName]
        _registeredCameras := setInsert node._registeredCameras dets.sourceName }
    exact ⟨subset_setInsert _ _, hsub, mem_setInsert _ _, hall⟩
  · rename_i hcount
    obtain ⟨hsub, hall⟩ := DetectionCallback.fiducials_grow dets.detections node
    exact ⟨List.Subset.refl _, hsub,
      List.count_pos_iff.1 (Nat.pos_of_ne_zero hcount), hall⟩

theorem deliver_grow (msgs : List ImageFiducialDetections) :
    ∀ node, node._registeredCameras ⊆ (deliver node msgs)._registeredCameras ∧
      node._registeredFiducials ⊆ (deliver node msgs)._registeredFiducials := by
  induction msgs with
  | nil => intro node; exact ⟨List.Subset.refl _, List.Subset.refl _⟩
  | cons msg rest ih =>
    intro node
    obtain ⟨h1, h2, _, _⟩ := DetectionCallback_grow node msg
    obtain ⟨h3, h4⟩ := ih (DetectionCallback node msg)
    exact ⟨List.Subset.trans h1 h3, List.Subset.trans h2 h4⟩

/-- Claim C5: one `DetectionCallback` only enlarges the two registration sets, the
sets afterwards contain the message's source name and every fiducial name of the
message, and over any further sequence of messages no name leaves either set. -/
theorem registration_monotonic (node : CameraObjectCalibrationNode)
    (dets : ImageFiducialDetections) (later : List ImageFiducialDetections) :
    (node._registeredCameras ⊆ (DetectionCallback node dets)._registeredCameras ∧
      node._registeredFiducials ⊆ (DetectionCallback node dets)._registeredFiducials ∧
      dets.sourceName ∈ (DetectionCallback node dets)._registeredCameras ∧
      ∀ fd, fd ∈ dets.detections →
        fd.name ∈ (DetectionCallback node dets)._registeredFiducials) ∧
    (node._registeredCameras ⊆ (deliver node later)._registeredCameras ∧
      node._registeredFiducials ⊆ (deliver node later)._registeredFiducials) :=
  ⟨DetectionCallback_grow node dets, deliver_grow later node⟩

end CameraObjectCalibrationNode

/-! ## Single-frame pose estimation -/

/-- The function `EstimateArrayPose` has no test of its own on the
correspondences: both point lists reach the solver unchanged, the call fails
exactly when the solver raises, with the solver's exception, and whenever the
solver returns a pose is returned. -/
theorem EstimateArrayPose.fails_only_with_solver (cv : OpenCV) (ops : PoseOps Pose)
    (imagePoints : List (ℚ × ℚ)) (cameraModel : Option PinholeCameraModel)
    (fiducialPoints : List (ℚ × ℚ × ℚ)) (guess : Pose) :
    (EstimateArrayPose.solverCall cv ops imagePoints cameraModel fiducialPoints
        guess).objectPoints = fiducialPoints ∧
    (EstimateArrayPose.solverCall cv ops imagePoints cameraModel fiducialPoints
        guess).imagePoints = imagePoints ∧
    (∀ e, EstimateArrayPose cv ops imagePoints cameraModel fiducialPoints guess = .error e ↔
      cv.solvePnP (EstimateArrayPose.solverCall cv ops imagePoints cameraModel
        fiducialPoints guess) = .error e) ∧
    (∀ out, cv.solvePnP (EstimateArrayPose.solverCall cv ops imagePoints cameraModel
        fiducialPoints guess) = .ok out →
      ∃ pose, EstimateArrayPose cv ops imagePoints cameraModel fiducialPoints guess
        = .ok pose) := by
  refine ⟨rfl, rfl, ?_, ?_⟩
  · intro e
    unfold EstimateArrayPose
    cases cv.solvePnP (EstimateArrayPose.solverCall cv ops imagePoints cameraModel
      fiducialPoints guess) with
    | error e' => simp
    | ok out => simp
  · intro out h
    unfold EstimateArrayPose
    rw [h]
    exact ⟨_, rfl⟩

/-- Claim C7: whenever the solver returns `rvec` and `tvec`, the pose returned by
`EstimateArrayPose` is `prerotation` composed on the left with the pose built
from the transform whose rotation block is `Rodrigues(rvec)` and whose
translation column is `tvec`.  The prerotation is built from constant
components: zero translation and quaternion components (-1/2, 1/2, -1/2, 1/2),
whose squares sum to 1. -/
theorem EstimateArrayPose.prerotation_applied (cv : OpenCV) (ops : PoseOps Pose)
    (imagePoints : List (ℚ × ℚ)) (cameraModel : Option PinholeCameraModel)
    (fiducialPoints : List (ℚ × ℚ × ℚ)) (guess : Pose) (flag : Bool) (rvec tvec : Vec3)
    (hsolve : cv.solvePnP (EstimateArrayPose.solverCall cv ops imagePoints cameraModel
      fiducialPoints guess) = .ok (flag, rvec, tvec)) :
    EstimateArrayPose cv ops imagePoints cameraModel fiducialPoints guess
      = .ok (ops.mul (ops.fromComponents EstimateArrayPose.prerotationComponents)
          (ops.fromTransform (EstimateArrayPose.transform (cv.RodriguesToMatrix rvec) tvec))) ∧
    (∀ i j : Fin 3, EstimateArrayPose.transform (cv.RodriguesToMatrix rvec) tvec
        i.castSucc j.castSucc = cv.RodriguesToMatrix rvec i j) ∧
    (∀ i : Fin 3, EstimateArrayPose.transform (cv.RodriguesToMatrix rvec) tvec
        i.castSucc 3 = tvec i) ∧
    EstimateArrayPose.prerotationComponents
      = { x := 0, y := 0, z := 0, q0 := -1/2, q1 := 1/2, q2 := -1/2, q3 := 1/2 } ∧
    EstimateArrayPose.prerotationComponents.q0 ^ 2
      + EstimateArrayPose.prerotationComponents.q1 ^ 2
      + EstimateArrayPose.prerotationComponents.q2 ^ 2
      + EstimateArrayPose.prerotationComponents.q3 ^ 2 = 1 := by
  refine ⟨?_, ?_, ?_, rfl, ?_⟩
  · unfold EstimateArrayPose
    rw [hsolve]
    rfl
  · intro i j
    fin_cases i <;> fin_cases j <;> rfl
  · intro i
    fin_cases i <;> rfl
  · norm_num [EstimateArrayPose.prerotationComponents]

/-- Witness for C7: the stand-in solver on a four-point input. -/
theorem EstimateArrayPose.prerotation_applied_witness :
    uncheckedSolver.solvePnP (EstimateArrayPose.solverCall uncheckedSolver matrixPoses
        [(0, 0), (1, 0), (1, 1), (0, 1)] none
        [(0, 0, 0), (1, 0, 0), (1, 1, 0), (0, 1, 0)] (1 : Mat44))
      = .ok (false, 0, fun i => (1 : Mat44) i.castSucc 3) ∧
    (EstimateArrayPose uncheckedSolver matrixPoses [(0, 0), (1, 0), (1, 1), (0, 1)] none
        [(0, 0, 0), (1, 0, 0), (1, 1, 0), (0, 1, 0)] (1 : Mat44)
      = .ok (matrixPoses.mul (matrixPoses.fromComponents EstimateArrayPose.prerotationComponents)
          (matrixPoses.fromTransform (EstimateArrayPose.transform
            (uncheckedSolver.RodriguesToMatrix 0) (fun i => (1 : Mat44) i.castSucc 3)))) ∧
    (∀ i j : Fin 3, EstimateArrayPose.transform (uncheckedSolver.RodriguesToMatrix 0)
        (fun i => (1 : Mat44) i.castSucc 3) i.castSucc j.castSucc
        = uncheckedSolver.RodriguesToMatrix 0 i j) ∧
    (∀ i : Fin 3, EstimateArrayPose.transform (uncheckedSolver.RodriguesToMatrix 0)
        (fun i => (1 : Mat44) i.castSucc 3) i.castSucc 3
        = (fun i => (1 : Mat44) i.castSucc 3) i) ∧
    EstimateArrayPose.prerotationComponents
      = { x := 0, y := 0, z := 0, q0 := -1/2, q1 := 1/2, q2 := -1/2, q3 := 1/2 } ∧
    EstimateArrayPose.prerotationComponents.q0 ^ 2
      + EstimateArrayPose.prerotationComponents.q1 ^ 2
      + EstimateArrayPose.prerotationComponents.q2 ^ 2
      + EstimateArrayPose.prerotationComponents.q3 ^ 2 = 1) :=
  ⟨rfl, EstimateArrayPose.prerotation_applied uncheckedSolver matrixPoses _ none _ (1 : Mat44)
    false 0 (fun i => (1 : Mat44) i.castSucc 3) rfl⟩

/-! ### Conversion to single precision -/

theorem log_two_eq {q : ℚ} {e : ℤ} (h1 : (2 : ℚ) ^ e ≤ |q|) (h2 : |q| < (2 : ℚ) ^ (e + 1)) :
    Int.log 2 |q| = e := by
  have hpos : 0 < |q| := lt_of_lt_of_le (by positivity) h1
  apply le_antisymm
  · have := (Int.lt_zpow_iff_log_lt (b := 2) (by norm_num) hpos (x := e + 1)).1
      (by exact_mod_cast h2)
    omega
  · exact (Int.zpow_le_iff_le_log (b := 2) (by norm_num) hpos).1 (by exact_mod_cast h1)

/-- The `double` 16777217 = 2^24 + 1 has no `float` of its own: it lies midway
between 16777216 and 16777218 and goes to the even neighbour. -/
theorem toSingle_16777217 : toSingle 16777217 = 16777216 := by
  have hlog : Int.log 2 |(16777217 : ℚ)| = 24 := log_two_eq (by norm_num) (by norm_num)
  unfold toSingle
  rw [if_neg (by norm_num), hlog]
  unfold roundToEven
  have hfloor : ⌊(16777217 : ℚ) / (2 : ℚ) ^ (max (24 : ℤ) (-126) - 23)⌋ = 8388608 := by
    rw [Int.floor_eq_iff]
    norm_num
  simp only [hfloor]
  norm_num

theorem roundToEven_multiple (n : ℤ) (ulp : ℚ) (hulp : ulp ≠ 0) :
    roundToEven (n * ulp) ulp = n * ulp := by
  unfold roundToEven
  have hq : (n : ℚ) * ulp / ulp = n := by field_simp
  simp only [hq, Int.floor_intCast, sub_self]
  norm_num

theorem toSingle_one : toSingle 1 = 1 := by
  have hlog : Int.log 2 |(1 : ℚ)| = 0 := log_two_eq (by norm_num) (by norm_num)
  unfold toSingle
  rw [if_neg (by norm_num), hlog]
  have h := roundToEven_multiple 8388608 ((2 : ℚ) ^ (max (0 : ℤ) (-126) - 23))
    (by positivity)
  have hval : ((8388608 : ℤ) : ℚ) * (2 : ℚ) ^ (max (0 : ℤ) (-126) - 23) = 1 := by norm_num
  rw [hval] at h
  exact h

theorem toSingle_two : toSingle 2 = 2 := by
  have hlog : Int.log 2 |(2 : ℚ)| = 1 := log_two_eq (by norm_num) (by norm_num)
  unfold toSingle
  rw [if_neg (by norm_num), hlog]
  have h := roundToEven_multiple 8388608 ((2 : ℚ) ^ (max (1 : ℤ) (-126) - 23))
    (by positivity)
  have hval : ((8388608 : ℤ) : ℚ) * (2 : ℚ) ^ (max (1 : ℤ) (-126) - 23) = 2 := by norm_num
  rw [hval] at h
  exact h

/-- Counterexample to C8 as stated: a camera model whose focal entries are the
`double` 16777217 reaches the solver with 16777216 in their place, so the solver
does not receive exactly the model's intrinsic matrix. -/
theorem EstimateArrayPose.camera_matrix_narrowed :
    wideModel.intrinsicMatrix 0 0 = 16777217 ∧
    (EstimateArrayPose.solverCall uncheckedSolver matrixPoses [] (some wideModel) []
        (1 : Mat44)).cameraMatrix 0 0 = 16777216 ∧
    (EstimateArrayPose.solverCall uncheckedSolver matrixPoses [] (some wideModel) []
        (1 : Mat44)).cameraMatrix ≠ wideModel.intrinsicMatrix := by
  have h00 : wideModel.intrinsicMatrix 0 0 = 16777217 := by
    simp [wideModel]
  have hcall : (EstimateArrayPose.solverCall uncheckedSolver matrixPoses [] (some wideModel) []
      (1 : Mat44)).cameraMatrix 0 0 = 16777216 := by
    show toSingle (wideModel.intrinsicMatrix 0 0) = 16777216
    rw [h00, toSingle_16777217]
  refine ⟨h00, hcall, ?_⟩
  intro heq
  have := congrFun (congrFun heq 0) 0
  rw [hcall, h00] at this
  norm_num at this

/-- Claim C8, amended: with a null camera model the solver is called with the 3×3
identity as camera matrix and no distortion coefficients; with a model it is
called with that model's intrinsic matrix converted entry by entry to single
precision, and with exactly that model's distortion coefficients.  In both cases
the result of `EstimateArrayPose` is computed from that one solver call. -/
theorem EstimateArrayPose.solver_camera_arguments (cv : OpenCV) (ops : PoseOps Pose)
    (imagePoints : List (ℚ × ℚ)) (fiducialPoints : List (ℚ × ℚ × ℚ)) (guess : Pose)
    (model : PinholeCameraModel) :
    (EstimateArrayPose.solverCall cv ops imagePoints none fiducialPoints guess).cameraMatrix
      = 1 ∧
    (EstimateArrayPose.solverCall cv ops imagePoints none fiducialPoints guess).distCoeffs
      = [] ∧
    (∀ i j, (EstimateArrayPose.solverCall cv ops imagePoints (some model) fiducialPoints
        guess).cameraMatrix i j = toSingle (model.intrinsicMatrix i j)) ∧
    (EstimateArrayPose.solverCall cv ops imagePoints (some model) fiducialPoints
        guess).distCoeffs = model.distortionCoeffs ∧
    ∀ cameraModel, EstimateArrayPose cv ops imagePoints cameraModel fiducialPoints guess
      = (cv.solvePnP (EstimateArrayPose.solverCall cv ops imagePoints cameraModel
          fiducialPoints guess)).map fun out =>
            ops.mul (EstimateArrayPose.prerotation ops)
              (ops.fromTransform
                (EstimateArrayPose.transform (cv.RodriguesToMatrix out.2.1) out.2.2)) := by
  refine ⟨rfl, rfl, fun _ _ => rfl, rfl, ?_⟩
  intro cameraModel
  unfold EstimateArrayPose
  cases cv.solvePnP (EstimateArrayPose.solverCall cv ops imagePoints cameraModel
    fiducialPoints guess) with
  | error e => rfl
  | ok out => rfl

/-! ## Laser odometry node set-up -/

/-- Claim C9: construction fails with `std::invalid_argument` whenever the matcher
type is not "icp", and whenever the filter type is none of "voxel",
"approximate_voxel" and "none"; with matcher "icp" and filter "none" it succeeds
and leaves `_filter` null. -/
theorem LaserOdometryNode.construct_rejects_unknown_types (matcherType filterType : String) :
    (matcherType ≠ "icp" →
      LaserOdometryNode.construct matcherType filterType
        = .error (.invalid_argument ("Unknown matcher type: " ++ matcherType))) ∧
    (filterType ≠ "voxel" → filterType ≠ "approximate_voxel" → filterType ≠ "none" →
      ∃ what, LaserOdometryNode.construct matcherType filterType
        = .error (.invalid_argument what)) ∧
    (matcherType = "icp" → filterType ≠ "voxel" → filterType ≠ "approximate_voxel" →
      filterType ≠ "none" →
      LaserOdometryNode.construct matcherType filterType
        = .error (.invalid_argument ("Unknown filter type: " ++ filterType))) ∧
    LaserOdometryNode.construct "icp" "none"
      = .ok { _matcher := .ICPMatcher, _filter := none } ∧
    (∀ node, LaserOdometryNode.construct matcherType "none" = .ok node →
      node._filter = none) := by
  refine ⟨?_, ?_, ?_, rfl, ?_⟩
  · intro h
    simp [LaserOdometryNode.construct, h]
  · intro h1 h2 h3
    by_cases hm : matcherType = "icp"
    · exact ⟨_, by simp [LaserOdometryNode.construct, hm, h1, h2, h3]; rfl⟩
    · exact ⟨_, by simp [LaserOdometryNode.construct, hm]; rfl⟩
  · intro hm h1 h2 h3
    simp [LaserOdometryNode.construct, hm, h1, h2, h3]
  · intro node h
    by_cases hm : matcherType = "icp"
    · simp [LaserOdometryNode.construct, hm] at h
      rw [← h]
    · simp [LaserOdometryNode.construct, hm] at h
/-! ## Bounds and failure behaviour of `ParseFiducialCalibration` -/

/-- With the three sequences readable, `ParseFiducialCalibration` is the length
test of line 30 followed by the point-building loop. -/
theorem ParseFiducialCalibration.of_readable (decode : S → Option D) (yaml : Node S)
    (info : FiducialInfo D) (pointsX pointsY pointsZ : List D)
    (hx : ((yaml.get "intrinsics").get "points_x").asDoubles decode = .ok pointsX)
    (hy : ((yaml.get "intrinsics").get "points_y").asDoubles decode = .ok pointsY)
    (hz : ((yaml.get "intrinsics").get "points_z").asDoubles decode = .ok pointsZ) :
    ParseFiducialCalibration decode yaml info =
      if ParseFiducialCalibration.lengthCheckFails pointsX pointsY pointsZ then
        .ok (false, info)
      else
        match ParseFiducialCalibration.loop pointsX pointsY pointsZ pointsX.length [] with
        | .error e => .error e
        | .ok points => .ok (true, { points := points }) := by
  have hdef : ∀ (n : Node S) (ds : List D), n.asDoubles decode = .ok ds → n.isUndefined = false := by
    intro n ds h
    cases n <;> simp [Node.asDoubles, Node.isUndefined] at h ⊢
  unfold ParseFiducialCalibration ParseFiducialCalibration.lengthCheckFails
  simp only [hdef _ _ hx, hdef _ _ hy, hdef _ _ hz, hx, hy, hz]
  simp

/-- Claim C12 (the code departs from it): the document with `points_x` and
`points_y` of length 2 and `points_z` of length 1 passes the length test, index 1
is below the length of `points_x` but not below the length of `points_z`, and the
loop reads `pointsZ[1]` out of range. -/
theorem ParseFiducialCalibration.loop_index_out_of_range :
    ((shortZCalibration.get "intrinsics").get "points_x").asDoubles some = .ok [1, 2] ∧
    ((shortZCalibration.get "intrinsics").get "points_y").asDoubles some = .ok [1, 2] ∧
    ((shortZCalibration.get "intrinsics").get "points_z").asDoubles some = .ok [1] ∧
    ParseFiducialCalibration.lengthCheckFails ([1, 2] : List Int) [1, 2] [1] = false ∧
    (1 < ([1, 2] : List Int).length ∧ ¬ 1 < ([1] : List Int).length) ∧
    ([1] : List Int)[1]? = none ∧
    ParseFiducialCalibration.loop ([1, 2] : List Int) [1, 2] [1] 2 [] = .error .outOfBounds ∧
    ParseFiducialCalibration some shortZCalibration ⟨[]⟩ = .error .outOfBounds :=
  ⟨rfl, rfl, rfl, rfl, by decide, rfl, rfl, rfl⟩

/-- Claim C15: whenever `ParseFiducialCalibration` returns false, `info` after the
call is `info` before it; and a false return comes either from a missing points
key or from readable sequences that fail the length test. -/
theorem ParseFiducialCalibration.false_leaves_info (decode : S → Option D) (yaml : Node S)
    (info info' : FiducialInfo D)
    (h : ParseFiducialCalibration decode yaml info = .ok (false, info')) :
    info'.points = info.points ∧
    ((((yaml.get "intrinsics").get "points_x").isUndefined = true ∨
        ((yaml.get "intrinsics").get "points_y").isUndefined = true ∨
        ((yaml.get "intrinsics").get "points_z").isUndefined = true) ∨
      ∃ pointsX pointsY pointsZ,
        ((yaml.get "intrinsics").get "points_x").asDoubles decode = .ok pointsX ∧
        ((yaml.get "intrinsics").get "points_y").asDoubles decode = .ok pointsY ∧
        ((yaml.get "intrinsics").get "points_z").asDoubles decode = .ok pointsZ ∧
        ParseFiducialCalibration.lengthCheckFails pointsX pointsY pointsZ = true) := by
  unfold ParseFiducialCalibration at h
  split at h
  · rename_i hundef
    injection h with h
    injection h with _ h
    subst h
    refine ⟨rfl, Or.inl ?_⟩
    simpa [Bool.or_eq_true, or_assoc] using hundef
  · cases hx : ((yaml.get "intrinsics").get "points_x").asDoubles decode with
    | error e => simp [hx] at h
    | ok pointsX =>
      cases hy : ((yaml.get "intrinsics").get "points_y").asDoubles decode with
      | error e => simp [hx, hy] at h
      | ok pointsY =>
        cases hz : ((yaml.get "intrinsics").get "points_z").asDoubles decode with
        | error e => simp [hx, hy, hz] at h
        | ok pointsZ =>
          simp only [hx, hy, hz] at h
          split at h
          · rename_i hlen
            injection h with h
            injection h with _ h
            subst h
            exact ⟨rfl, Or.inr ⟨pointsX, pointsY, pointsZ, rfl, rfl, rfl, hlen⟩⟩
          · cases hloop : ParseFiducialCalibration.loop pointsX pointsY pointsZ
                pointsX.length [] with
            | error e => simp [hloop] at h
            | ok points => simp [hloop] at h

/-- Witness for C15: a document that fails the length test, parsed over an `info`
that holds one point. -/
theorem ParseFiducialCalibration.false_leaves_info_witness :
    ParseFiducialCalibration some raggedCalibration ⟨[⟨7, 8, 9⟩]⟩
      = .ok (false, ⟨[⟨7, 8, 9⟩]⟩) ∧
    ((⟨[⟨7, 8, 9⟩]⟩ : FiducialInfo Int).points = (⟨[⟨7, 8, 9⟩]⟩ : FiducialInfo Int).points ∧
    ((((raggedCalibration.get "intrinsics").get "points_x").isUndefined = true ∨
        ((raggedCalibration.get "intrinsics").get "points_y").isUndefined = true ∨
        ((raggedCalibration.get "intrinsics").get "points_z").isUndefined = true) ∨
      ∃ pointsX pointsY pointsZ,
        ((raggedCalibration.get "intrinsics").get "points_x").asDoubles some = .ok pointsX ∧
        ((raggedCalibration.get "intrinsics").get "points_y").asDoubles some = .ok pointsY ∧
        ((raggedCalibration.get "intrinsics").get "points_z").asDoubles some = .ok pointsZ ∧
        ParseFiducialCalibration.lengthCheckFails pointsX pointsY pointsZ = true)) :=
  ⟨rfl, ParseFiducialCalibration.false_leaves_info some raggedCalibration ⟨[⟨7, 8, 9⟩]⟩
    ⟨[⟨7, 8, 9⟩]⟩ rfl⟩

/-- A missing points key also gives a false return that leaves `info` as it was. -/
theorem ParseFiducialCalibration.missing_key_returns_false (decode : S → Option D)
    (info : FiducialInfo D) :
    ParseFiducialCalibration decode (.null : Node S) info = .ok (false, info) := rfl
/-! ## Writing the camera results -/

theorem CameraObjectCalibrationNode.WriteResults.poses_foldl
    (cams : List (CameraObjectCalibration Pose)) (refFrame : String)
    (acc : List (RelativePose Pose)) :
    cams.foldl
        (fun poses cam =>
          poses ++ [{ childID := cam.name, parentID := refFrame, pose := cam.extrinsics }])
        acc
      = acc ++ cams.map fun cam =>
          { childID := cam.name, parentID := refFrame, pose := cam.extrinsics } := by
  induction cams generalizing acc with
  | nil => simp
  | cons cam rest ih => simp [ih]

/-- Claim C11: the list that `WriteResults` hands to the extrinsics writer has one
`RelativePose` per camera returned by the calibrator, in the same order, with
`childID` the camera's name, `parentID` the reference frame and `pose` the
camera's extrinsics; the writer is called with that list and the given path. -/
theorem CameraObjectCalibrationNode.WriteResults_one_pose_per_camera
    (WriteExtrinsicsCalibration : String → List (RelativePose Pose) → Bool)
    (cams : List (CameraObjectCalibration Pose)) (refFrame path : String) :
    (CameraObjectCalibrationNode.WriteResults WriteExtrinsicsCalibration cams refFrame
        path).writerPoses
      = cams.map (fun cam =>
          { childID := cam.name, parentID := refFrame, pose := cam.extrinsics }) ∧
    (CameraObjectCalibrationNode.WriteResults WriteExtrinsicsCalibration cams refFrame
        path).writerPoses.length = cams.length ∧
    (∀ i (hi : i < cams.length),
      (CameraObjectCalibrationNode.WriteResults WriteExtrinsicsCalibration cams refFrame
          path).writerPoses[i]?
        = some { childID := cams[i].name, parentID := refFrame,
                 pose := cams[i].extrinsics }) ∧
    (CameraObjectCalibrationNode.WriteResults WriteExtrinsicsCalibration cams refFrame
        path).writerPath = path ∧
    (CameraObjectCalibrationNode.WriteResults WriteExtrinsicsCalibration cams refFrame
        path).errorLogged
      = !WriteExtrinsicsCalibration path
          (cams.map fun cam =>
            { childID := cam.name, parentID := refFrame, pose := cam.extrinsics }) := by
  have hposes : (CameraObjectCalibrationNode.WriteResults WriteExtrinsicsCalibration cams
      refFrame path).writerPoses
      = cams.map (fun cam =>
          { childID := cam.name, parentID := refFrame, pose := cam.extrinsics }) := by
    simp [CameraObjectCalibrationNode.WriteResults,
      CameraObjectCalibrationNode.WriteResults.poses,
      CameraObjectCalibrationNode.WriteResults.poses_foldl]
  refine ⟨hposes, ?_, ?_, rfl, ?_⟩
  · rw [hposes, List.length_map]
  · intro i hi
    rw [hposes, List.getElem?_map, List.getElem?_eq_getElem hi]
    rfl
  · have := hposes
    simp only [CameraObjectCalibrationNode.WriteResults] at this ⊢
    rw [this]
/-! ## Laser odometry -/

namespace LaserOdometryNode

/-- Claim C13 (the code departs from it): a fresh registration receives a cloud
stamped 5, which becomes the keyframe with `lastPoseTime` 5; a second cloud with
the same stamp passes the test `dt > _maxDt || dt < 0`, the match succeeds, and
the velocity is published as `Log( displacement ) / dt` with `dt` equal to 0. -/
theorem ProcessCloud.velocity_with_zero_dt :
    (ProcessCloud linePoses steadyNode (CloudRegistration.initial linePoses false)
        cloudAtFive).velocity = none ∧
    (ProcessCloud linePoses steadyNode (CloudRegistration.initial linePoses false)
        cloudAtFive).reg.keyframeCloud = some cloudAtFive ∧
    (ProcessCloud linePoses steadyNode (CloudRegistration.initial linePoses false)
        cloudAtFive).reg.lastPoseTime = 5 ∧
    ((ProcessCloud linePoses steadyNode
        (ProcessCloud linePoses steadyNode (CloudRegistration.initial linePoses false)
          cloudAtFive).reg
        cloudAtFive).velocity.map fun out => out.twistDivisor) = some 0 ∧
    ¬ (0 : ℚ) < 0 := by
  have hratio : floatQuotient 2 2 = .finite 1 := by
    simp [floatQuotient, toSingle_two, toSingle_one]
  refine ⟨rfl, rfl, rfl, ?_, lt_irrefl _⟩
  simp [ProcessCloud, ResetKeyframe, CloudRegistration.initial, steadyNode, cloudAtFive,
    exceedsLimit, linePoses, hratio, FloatValue.lt]
  norm_num

end LaserOdometryNode
namespace LaserOdometryNode

theorem ProcessCloud.restarted_of_reset (ops : OdometryPoseOps Pose)
    (node : OdometryConfig Pose) (reg : CloudRegistration Pose) (cloud : LaserCloud)
    (debug : Option (LaserCloud × LaserCloud)) :
    Restarted ops node cloud
      { reg := ResetKeyframe ops reg
          (match node._filter with
            | some filter => filter cloud
            | none => cloud) cloud.stamp
        velocity := none
        debug := debug } :=
  ⟨rfl, rfl, rfl, rfl, rfl⟩

theorem exceedsLimit_false {value : ℚ} {limit? : Option ℚ}
    (h : exceedsLimit value limit? = false) :
    ∀ limit, limit? = some limit → value ≤ limit := by
  intro limit hl
  subst hl
  simpa [exceedsLimit] using h

/-- Every `ProcessCloud` call ends in outcome (a) or outcome (b). -/
theorem ProcessCloud.tracked_or_restarted (ops : OdometryPoseOps Pose)
    (node : OdometryConfig Pose) (reg : CloudRegistration Pose) (cloud : LaserCloud) :
    Tracked ops node reg cloud (ProcessCloud ops node reg cloud) ∨
      Restarted ops node cloud (ProcessCloud ops node reg cloud) := by
  unfold ProcessCloud
  cases hk : reg.keyframeCloud with
  | none => exact Or.inr (ProcessCloud.restarted_of_reset ops node reg cloud none)
  | some keyframeCloud =>
    simp only []
    split
    · exact Or.inr (ProcessCloud.restarted_of_reset ops node reg cloud none)
    · rename_i hguard
      simp only [Bool.or_eq_true, decide_eq_true_eq, not_or, not_lt, Bool.not_eq_true] at hguard
      obtain ⟨⟨hdt, hdt0⟩, hage⟩ := hguard
      split
      · exact Or.inr (ProcessCloud.restarted_of_reset ops node reg cloud _)
      · rename_i hsucc
        split
        · exact Or.inr (ProcessCloud.restarted_of_reset ops node reg cloud _)
        · rename_i hratio
          split
          · exact Or.inr (ProcessCloud.restarted_of_reset ops node reg cloud _)
          · rename_i hfit
            refine Or.inl ⟨keyframeCloud, _, hk, rfl, rfl, rfl, rfl, rfl, rfl, rfl, hk.symm,
              rfl, hdt0, hdt, exceedsLimit_false hage, ?_, by simpa using hratio, not_lt.1 hfit⟩
            simpa using hsucc

end LaserOdometryNode

namespace LaserOdometryNode

/-- One `ProcessCloud` call keeps `keyframeTime ≤ lastPoseTime`. -/
theorem ProcessCloud.keeps_time_order (ops : OdometryPoseOps Pose)
    (node : OdometryConfig Pose) (reg : CloudRegistration Pose) (cloud : LaserCloud)
    (h : reg.keyframeTime ≤ reg.lastPoseTime) :
    (ProcessCloud ops node reg cloud).reg.keyframeTime
      ≤ (ProcessCloud ops node reg cloud).reg.lastPoseTime := by
  rcases ProcessCloud.tracked_or_restarted ops node reg cloud with ht | hr
  · obtain ⟨_, _, _, _, _, _, _, _, _, hlt, _, hkt, hdt, _⟩ := ht
    rw [hkt, hlt]
    linarith
  · obtain ⟨_, _, hkt, hlt, _⟩ := hr
    rw [hkt, hlt]

theorem processClouds_time_order (ops : OdometryPoseOps Pose) (node : OdometryConfig Pose)
    (clouds : List LaserCloud) :
    ∀ reg : CloudRegistration Pose, reg.keyframeTime ≤ reg.lastPoseTime →
      (processClouds ops node reg clouds).keyframeTime
        ≤ (processClouds ops node reg clouds).lastPoseTime := by
  induction clouds with
  | nil => intro reg h; exact h
  | cons cloud rest ih =>
    intro reg h
    exact ih _ (ProcessCloud.keeps_time_order ops node reg cloud h)

/-- For every registration state and cloud, `ProcessCloud` ends in exactly one of
two outcomes: (a) a velocity is published, `lastPose` and `lastPoseTime` become
the match transform and the cloud time, the keyframe cloud and time stay, and
then a keyframe existed, `0 ≤ dt ≤ max_dt`, the keyframe age was within its
limit, the match succeeded, the comparison `inlierRatio < min_inlier_ratio` was
false and the fitness at most `max_error`; or (b) no velocity is published and
the keyframe is reset to the current cloud with `keyframeTime = lastPoseTime =`
cloud time and the identity as `lastPose`.  The order
`keyframeTime ≤ lastPoseTime` is kept by every call and so holds after every call
of a run that starts from a fresh registration. -/
theorem ProcessCloud.tracks_or_restarts (ops : OdometryPoseOps Pose)
    (node : OdometryConfig Pose) (reg : CloudRegistration Pose) (cloud : LaserCloud)
    (showOutput : Bool) (clouds : List LaserCloud) :
    (Tracked ops node reg cloud (ProcessCloud ops node reg cloud) ∨
      Restarted ops node cloud (ProcessCloud ops node reg cloud)) ∧
    ¬ (Tracked ops node reg cloud (ProcessCloud ops node reg cloud) ∧
      Restarted ops node cloud (ProcessCloud ops node reg cloud)) ∧
    (reg.keyframeTime ≤ reg.lastPoseTime →
      (ProcessCloud ops node reg cloud).reg.keyframeTime
        ≤ (ProcessCloud ops node reg cloud).reg.lastPoseTime) ∧
    (processClouds ops node (CloudRegistration.initial ops showOutput) clouds).keyframeTime
      ≤ (processClouds ops node (CloudRegistration.initial ops showOutput)
          clouds).lastPoseTime := by
  refine ⟨ProcessCloud.tracked_or_restarted ops node reg cloud, ?_,
    ProcessCloud.keeps_time_order ops node reg cloud,
    processClouds_time_order ops node clouds _ (le_refl _)⟩
  rintro ⟨⟨_, out, _, hsome, _⟩, hnone, _⟩
  rw [hnone] at hsome
  exact Option.noConfusion hsome

/-- With a keyframe that has points, a false comparison
`inlierRatio < min_inlier_ratio` means that the ratio is at least the minimum. -/
theorem floatQuotient_atLeast (numInliers size : ℕ) (limit : ℚ) (hsize : size ≠ 0)
    (h : (floatQuotient numInliers size).lt limit = false) :
    (floatQuotient numInliers size).atLeast limit := by
  simp only [floatQuotient, if_neg hsize, FloatValue.lt, decide_eq_false_iff_not,
    not_lt] at h
  simpa only [floatQuotient, if_neg hsize, FloatValue.atLeast] using h

end LaserOdometryNode

/-! ## The parser with unchecked vector reads -/

/-- Where the checked loop finishes, the unchecked loop builds the same points. -/
theorem ParseFiducialCalibration.uncheckedLoop_of_loop (strayY strayZ : Nat → D)
    (pointsX pointsY pointsZ : List D) :
    ∀ (remaining : Nat) (acc points : List (Point D)),
      ParseFiducialCalibration.loop pointsX pointsY pointsZ remaining acc = .ok points →
      ParseFiducialCalibration.uncheckedLoop strayY strayZ pointsX pointsY pointsZ remaining acc
        = points := by
  intro remaining
  induction remaining with
  | zero =>
    intro acc points h
    simp only [ParseFiducialCalibration.loop] at h
    injection h
  | succ r ih =>
    intro acc points h
    simp only [ParseFiducialCalibration.loop] at h
    simp only [ParseFiducialCalibration.uncheckedLoop]
    cases hx : pointsX[pointsX.length - (r + 1)]? with
    | none => simp [hx] at h
    | some x =>
      cases hy : pointsY[pointsX.length - (r + 1)]? with
      | none => simp [hx, hy] at h
      | some y =>
        cases hz : pointsZ[pointsX.length - (r + 1)]? with
        | none => simp [hx, hy, hz] at h
        | some z =>
          simp only [hx, hy, hz] at h
          simp only [uncheckedAt, hy, hz]
          exact ih _ _ h

/-- Every normal return of the checked model is a return of the unchecked one. -/
theorem ParseFiducialCalibration.unchecked_of_ok (decode : S → Option D)
    (strayY strayZ : Nat → D) (yaml : Node S) (info : FiducialInfo D)
    (r : Bool × FiducialInfo D) (h : ParseFiducialCalibration decode yaml info = .ok r) :
    ParseFiducialCalibration.unchecked decode strayY strayZ yaml info = .ok r := by
  unfold ParseFiducialCalibration at h
  unfold ParseFiducialCalibration.unchecked
  split at h
  · rename_i hundef
    rw [if_pos hundef]
    exact h
  · rename_i hdef
    rw [if_neg hdef]
    cases hx : ((yaml.get "intrinsics").get "points_x").asDoubles decode with
    | error e => simp [hx] at h
    | ok pointsX =>
      cases hy : ((yaml.get "intrinsics").get "points_y").asDoubles decode with
      | error e => simp [hx, hy] at h
      | ok pointsY =>
        cases hz : ((yaml.get "intrinsics").get "points_z").asDoubles decode with
        | error e => simp [hx, hy, hz] at h
        | ok pointsZ =>
          simp only [hx, hy, hz] at h ⊢
          split at h
          · rename_i hlen
            rw [if_pos hlen]
            exact h
          · rename_i hlen
            rw [if_neg hlen]
            cases hloop : ParseFiducialCalibration.loop pointsX pointsY pointsZ
                pointsX.length [] with
            | error e => simp [hloop] at h
            | ok points =>
              simp only [hloop] at h
              rw [ParseFiducialCalibration.uncheckedLoop_of_loop strayY strayZ _ _ _ _ _ _ hloop]
              exact h

/-- Claim C10 (the code departs from it): the document with `points_x` of length 2
and `points_y`, `points_z` of length 1 passes the length test, and the call
returns true with two points; the second point is `(2, strayY 1, strayZ 1)`, its
`y` and `z` read beyond the end of the vectors, since `points_y[1]` and
`points_z[1]` do not exist.  With checked reads the same call faults. -/
theorem ParseFiducialCalibration.success_with_stray_coordinates
    (strayY strayZ : Nat → Int) (info : FiducialInfo Int) :
    ((shortYZCalibration.get "intrinsics").get "points_x").asDoubles some = .ok [1, 2] ∧
    ((shortYZCalibration.get "intrinsics").get "points_y").asDoubles some = .ok [1] ∧
    ((shortYZCalibration.get "intrinsics").get "points_z").asDoubles some = .ok [1] ∧
    ParseFiducialCalibration.lengthCheckFails ([1, 2] : List Int) [1] [1] = false ∧
    ParseFiducialCalibration.unchecked some strayY strayZ shortYZCalibration info
      = .ok (true, ⟨[⟨1, 1, 1⟩, ⟨2, strayY 1, strayZ 1⟩]⟩) ∧
    ([1] : List Int)[1]? = none ∧
    ParseFiducialCalibration some shortYZCalibration info = .error .outOfBounds :=
  ⟨rfl, rfl, rfl, rfl, rfl, rfl, rfl⟩

end Argus
